import Mathlib

/-!
# Sum aggregator of the metrics SDK (`sdk/metric/aggregator/sum/sum.go`)

A shallow embedding of the `int64` instantiation of the sum aggregator
`Methods[int64, traits.Int64, State[int64, traits.Int64]]`.

* `int64` is a mathematical integer in `[-2^63, 2^63)`; every arithmetic
  operation of the source is followed by an explicit two's-complement wrap.
* The methods of the source take `*State` pointers and mutate through them.
  The embedding passes a heap (address to `State`) explicitly, so that two
  arguments of one call may or may not alias, as in Go.
-/

namespace sum

/-! ## Machine integers -/

/-- Two's-complement wrap of a mathematical integer into the `int64` range. -/
def wrapInt64 (x : Int) : Int :=
  (x + 9223372036854775808) % 18446744073709551616 - 9223372036854775808

/-- A Go `int64`: an integer together with its range bounds. -/
structure Int64 where
  val : Int
  lo : -9223372036854775808 ≤ val
  hi : val < 9223372036854775808

namespace Int64

theorem ext_val {a b : Int64} (h : a.val = b.val) : a = b := by
  cases a; cases b; simp only at h; subst h; rfl

instance : DecidableEq Int64 := fun a b =>
  if h : a.val = b.val then isTrue (ext_val h)
  else isFalse (fun hab => h (congrArg Int64.val hab))

/-- Conversion of an arbitrary integer, wrapping as Go's conversions and
arithmetic on `int64` do. -/
def ofInt (x : Int) : Int64 :=
  ⟨wrapInt64 x, by unfold wrapInt64; omega, by unfold wrapInt64; omega⟩

/-- Go `a + b` on `int64` (wraps on overflow). -/
def add (a b : Int64) : Int64 := ofInt (a.val + b.val)

/-- Go `a - b` on `int64` (wraps on overflow). -/
def sub (a b : Int64) : Int64 := ofInt (a.val - b.val)

/-- The constant `0`. -/
def zero : Int64 := ⟨0, by decide, by decide⟩

instance : Add Int64 := ⟨add⟩
instance : Sub Int64 := ⟨sub⟩
instance : Zero Int64 := ⟨zero⟩

end Int64

/-! ## Data model -/

/-- The struct `State[N, Traits]` of the source at `N = int64`: one field. -/
structure State where
  Value : Int64

/-- Address of a `State` (a non-nil `*State`). Since `State` has the single
field `Value`, the address of the state is also the address `&s.Value`. -/
abbrev Ptr := Nat

/-- The memory holding the states the pointers refer to. -/
abbrev Heap := Ptr → State

/-- Store `v` into the `Value` field of the state at `p`. -/
def Heap.setValue (h : Heap) (p : Ptr) (v : Int64) : Heap :=
  fun q => if q = p then { Value := v } else h q

/-- The type `number.Number` as far as the sum aggregator uses it. -/
structure Number where
  asInt64 : Int64
  deriving DecidableEq

/-- An `aggregation.Aggregation` interface value: either it holds a
`*State` of this package or a value of some other dynamic type. -/
inductive AggregationView where
  | ofState (p : Ptr)
  | foreign (tag : Nat)

/-! ## The helpers of `traits.Int64` -/

/-- Modelled from the spec: `traits.Int64.SwapAtomic` is not part of the
sources at hand. The spec describes the harvest as "a single atomic exchange":
the old content of the cell is returned and the new value is stored. -/
def SwapAtomic (h : Heap) (ptr : Ptr) (new : Int64) : Int64 × Heap :=
  ((h ptr).Value, h.setValue ptr new)

/-- Modelled from the spec: `traits.Int64.AddAtomic` is not part of the
sources at hand. The spec describes `Update` as "an atomic add
(read-modify-write)". -/
def AddAtomic (h : Heap) (ptr : Ptr) (value : Int64) : Heap :=
  h.setValue ptr ((h ptr).Value + value)

/-- Modelled from the spec: `traits.Int64.ToNumber` is not part of the
sources at hand; the exported sum reports the accumulator value. -/
def ToNumber (v : Int64) : Number := ⟨v⟩

/-! ## The methods of `sum.go` -/

/-- Source: `func (s *State) Sum() (number.Number, error)`; the error is
always `nil`, rendered as `none`. -/
def State.Sum (h : Heap) (s : Ptr) : Number × Option Unit :=
  (ToNumber (h s).Value, none)

/-- Source: `Methods.Init`, whose body is empty ("storage is zero to start"). -/
def Methods.Init {Config : Type} (h : Heap) (_state : Ptr) (_cfg : Config) : Heap :=
  h

/-- Source: `dest.Value = traits.SwapAtomic(&resetSrc.Value, 0)`. The call
on the right is evaluated first, then the store into `dest.Value`. -/
def Methods.SynchronizedMove (h : Heap) (resetSrc dest : Ptr) : Heap :=
  let r := SwapAtomic h resetSrc 0
  r.2.setValue dest r.1

/-- Source: `ptr.Value = 0`. -/
def Methods.Reset (h : Heap) (ptr : Ptr) : Heap :=
  h.setValue ptr 0

/-- Source: `return ptr.Value == 0`. -/
def Methods.HasData (h : Heap) (ptr : Ptr) : Bool :=
  decide ((h ptr).Value = 0)

/-- Source: `traits.AddAtomic(&state.Value, value)`. -/
def Methods.Update (h : Heap) (state : Ptr) (value : Int64) : Heap :=
  AddAtomic h state value

/-- Source: `to.Value += from.Value`. -/
def Methods.Merge (h : Heap) (toPtr fromPtr : Ptr) : Heap :=
  h.setValue toPtr ((h toPtr).Value + (h fromPtr).Value)

/-- Source: `return state`; the pointer itself is stored in the interface. -/
def Methods.Aggregation (state : Ptr) : AggregationView :=
  AggregationView.ofState state

/-- Source: `return aggr.(*State[N, Traits])`; the type assertion fails
(a run-time panic, here `none`) on any other dynamic type. -/
def Methods.Storage (aggr : AggregationView) : Option Ptr :=
  match aggr with
  | AggregationView.ofState p => some p
  | AggregationView.foreign _ => none

/-- Source: `oldValueModified.Value = newValue.Value - oldValueModified.Value`. -/
def Methods.SubtractSwap (h : Heap) (newValue oldValueModified : Ptr) : Heap :=
  h.setValue oldValueModified ((h newValue).Value - (h oldValueModified).Value)

/-- The call `a.Sum()` on an aggregation view: dynamic dispatch to
`State.Sum` when the view holds a `*State`. -/
def AggregationView.Sum (h : Heap) (a : AggregationView) : Option (Number × Option Unit) :=
  match a with
  | AggregationView.ofState p => some (State.Sum h p)
  | AggregationView.foreign _ => none

/-- The calls `Update(s, v_1)`, ..., `Update(s, v_n)` one after the other,
each as one atomic step. -/
def applyUpdates (h : Heap) (s : Ptr) (vs : List Int64) : Heap :=
  vs.foldl (fun acc v => Methods.Update acc s v) h

/-- A heap in which every state holds `v`. -/
def constHeap (v : Int64) : Heap := fun _ => { Value := v }

/-- The heap whose state at address `i` holds the `i`-th entry of `vals`
(wrapped to `int64`), and `0` beyond the end of the list. -/
def heapOf (vals : List Int) : Heap :=
  fun p => { Value := Int64.ofInt (vals.getD p 0) }

/-- The mathematical (unwrapped) sum of a list of `int64` values. -/
def sumVals (vs : List Int64) : Int :=
  (vs.map Int64.val).sum

end sum

/-!
# Provider, meters and the collection cycle (`sdk/metric/provider.go`)

Types of packages that `provider.go` imports are modelled as far as the file
uses them. Functions of those packages enter as parameters of the definitions
that call them. Locks are left out: every method body below is one atomic
step, which is what holding the lock for the whole body gives.
-/

namespace time

/-- Modelled from the spec: `time.Time` as an instant on a linear clock,
counted from the zero value `time.Time{}`. -/
abbrev Time := Nat

end time

namespace number

/-- Modelled from the spec: `number.Kind`, the numeric kind of an instrument
(integer or floating point), by its code; only equality is used. -/
abbrev Kind := Nat

end number

namespace sdkinstrument

/-- Modelled from the spec: `sdkinstrument.Kind`, the instrument kind
(counter, gauge, ...), by its code; only equality is used. -/
abbrev Kind := Nat

/-- Modelled from the spec: `sdkinstrument.Descriptor`, the identity of one
instrument: "name, instrument kind, numeric kind, unit, description". -/
structure Descriptor where
  Name : String
  Kind : sdkinstrument.Kind
  NumberKind : number.Kind
  Description : String
  Unit : String
  deriving DecidableEq

/-- Modelled from the spec: `sdkinstrument.NewDescriptor(name, ik, nk,
description, unit)` builds the descriptor from its five fields. -/
def NewDescriptor (name : String) (ik : sdkinstrument.Kind) (nk : number.Kind)
    (description : String) (unit : String) : Descriptor :=
  { Name := name, Kind := ik, NumberKind := nk, Description := description, Unit := unit }

end sdkinstrument

namespace instrument

/-- Modelled from the spec: `instrument.Config`, the result of
`instrument.NewConfig(opts...)`, read through `Description()` and `Unit()`. -/
structure Config where
  Description : String
  Unit : String
  deriving DecidableEq

end instrument

namespace instrumentation

/-- Modelled from the spec: `instrumentation.Library`, the scope identity
"(name, version, schema)", used as a map key. -/
structure Library where
  Name : String
  Version : String
  SchemaURL : String
  deriving DecidableEq

end instrumentation

namespace resource

/-- Modelled from the spec: a `*resource.Resource`, by its address. -/
structure Resource where
  addr : Nat
  deriving DecidableEq

end resource

namespace views

/-- Modelled from the spec: a `views.View` rule, by an identifier. -/
structure View where
  id : Nat
  deriving DecidableEq

end views

namespace asyncstate

/-- Modelled from the spec: a `*asyncstate.Callback`, by its address. -/
structure Callback where
  addr : Nat
  deriving DecidableEq

end asyncstate

namespace reader

/-- Modelled from the spec: a `*reader.Reader` (an export backend), by its
address. -/
structure Reader where
  addr : Nat
  deriving DecidableEq

/-- Modelled from the spec: `reader.Sequence`, "start time (provider boot),
previous-collection time, current time". -/
structure Sequence where
  Start : time.Time
  Last : time.Time
  Now : time.Time
  deriving DecidableEq

/-- Modelled from the spec: `reader.Scope`, one scope of a snapshot: the scope
identity and the instrument results, of a type `Out` left open. -/
structure Scope (Out : Type) where
  Library : instrumentation.Library
  Instruments : List Out

/-- Modelled from the spec: `reader.Metrics`, the snapshot: "resource
attributes + ordered list of" scopes. -/
structure Metrics (Out : Type) where
  Resource : resource.Resource
  Scopes : List (Scope Out)

end reader

namespace viewstate

/-- Modelled from the spec: a `*viewstate.Compiler`. The view compiler is an
external collaborator; a compiled state is represented by the arguments
`viewstate.New` was called with. -/
structure Compiler where
  library : instrumentation.Library
  views : List views.View
  readers : List reader.Reader
  deriving DecidableEq

/-- Modelled from the spec: `viewstate.New(lib, views, readers)`. -/
def New (lib : instrumentation.Library) (vs : List views.View) (rs : List reader.Reader) :
    Compiler :=
  { library := lib, views := vs, readers := rs }

end viewstate

namespace metric

/-! ## Data model of `provider.go` -/

/-- Source: `Config struct { res; readers; views }`. -/
structure Config where
  res : resource.Resource
  readers : List reader.Reader
  views : List views.View
  deriving DecidableEq

/-- Source: `Option func(cfg *Config)`. An option receives the configuration
and leaves the changed one. The source calls the type `Option`, a name Lean
reserves. -/
abbrev ProviderOption := Config → Config

/-- Modelled from the spec: `metric.MeterConfig` of the API package, the
result of `metric.NewMeterConfig(opts...)`, read through
`InstrumentationVersion()` and `SchemaURL()`. -/
structure MeterConfig where
  InstrumentationVersion : String
  SchemaURL : String
  deriving DecidableEq

/-- The dynamic type of an interface value, i.e. the instrument type an
instantiation of the type parameter `T` stands for, by a tag. -/
abbrev TypeTag := Nat

/-- A value of an instrument type `T`: the address of the object and the
descriptor its method `Descriptor()` reports. -/
structure Instrument where
  addr : Nat
  descriptor : sdkinstrument.Descriptor
  deriving DecidableEq

/-- Source: an `instrumentIface` interface value, the dynamic type together
with the value it holds. -/
structure instrumentIface where
  dynType : TypeTag
  value : Instrument
  deriving DecidableEq

/-- Source: the interface method `Descriptor()`. -/
def instrumentIface.Descriptor (i : instrumentIface) : sdkinstrument.Descriptor :=
  i.value.descriptor

/-- Source: `meter struct`. The back pointer `provider` and the lock are left
out; a Go map from names to slices is a function that yields the empty list
for an absent key. -/
structure meter where
  library : instrumentation.Library
  names : String → List instrumentIface
  views : viewstate.Compiler
  instruments : List instrumentIface
  callbacks : List asyncstate.Callback

/-- A `*meter`: the index of the meter in the memory of allocated meters. -/
abbrev MeterPtr := Nat

/-- The meters allocated so far; `&meter{...}` appends one. -/
abbrev MeterHeap := List meter

/-- Source: `provider struct`. A nil map entry and an absent one are both
`none`. -/
structure provider where
  cfg : Config
  startTime : time.Time
  ordered : List MeterPtr
  meters : instrumentation.Library → Option MeterPtr

/-- Source: `providerProducer struct`. The pointer `provider` is resolved by
passing the provider state to `Produce`. -/
structure providerProducer where
  reader : reader.Reader
  lastCollect : time.Time
  deriving DecidableEq

/-- Modelled from the spec: the methods `(*asyncstate.Callback).Run` and
`instrumentIface.Collect` that a collection cycle calls. They act on a state
`σ` standing for the aggregator storage; `Collect` appends to the instrument
results of the scope. -/
structure Collaborators (σ Out : Type) where
  Run : asyncstate.Callback → reader.Reader → σ → σ
  Collect : instrumentIface → reader.Reader → reader.Sequence → List Out → σ → List Out × σ

/-! ## Options and construction -/

/-- Source: `WithResource`: `cfg.res = res`. -/
def WithResource (res : resource.Resource) : ProviderOption :=
  fun cfg => { cfg with res := res }

/-- Source: `WithReader`: `cfg.readers = append(cfg.readers, r)`. -/
def WithReader (r : reader.Reader) : ProviderOption :=
  fun cfg => { cfg with readers := cfg.readers ++ [r] }

/-- Source: `WithViews`: `cfg.views = append(cfg.views, vs...)`. -/
def WithViews (vs : List views.View) : ProviderOption :=
  fun cfg => { cfg with views := cfg.views ++ vs }

/-- Source: `producerFor`; `lastCollect` is not set and so is the zero time. -/
def provider.producerFor (_p : provider) (r : reader.Reader) : providerProducer :=
  { reader := r, lastCollect := 0 }

/-- Source: `New`. `defaultRes` is the value of `resource.Default()` and `now`
the reading of `time.Now()`. Besides the provider the result lists the
producers registered on the exporters of the readers, in order. -/
def New (defaultRes : resource.Resource) (now : time.Time) (opts : List ProviderOption) :
    provider × List (reader.Reader × providerProducer) :=
  let cfg := opts.foldl (fun cfg opt => opt cfg)
    ({ res := defaultRes, readers := [], views := [] } : Config)
  let p : provider :=
    { cfg := cfg, startTime := now, ordered := [], meters := fun _ => none }
  (p, cfg.readers.map (fun r => (r, p.producerFor r)))

/-! ## The collection cycle -/

/-- Source: `getOrdered`. -/
def provider.getOrdered (p : provider) : List MeterPtr :=
  p.ordered

/-- Source: the `reader.Sequence` literal built in `Produce`; `now` is the
reading of `time.Now()`. -/
def providerProducer.sequence (pp : providerProducer) (p : provider) (now : time.Time) :
    reader.Sequence :=
  { Start := p.startTime, Last := pp.lastCollect, Now := now }

/-- Source: the body of the loop over `ordered` in `Produce`, for one meter:
run the callbacks, set the library, collect the instruments. -/
def providerProducer.produceMeter {σ Out : Type} (env : Collaborators σ Out)
    (pp : providerProducer) (sequence : reader.Sequence) (m : meter) (s : σ) :
    reader.Scope Out × σ :=
  let callbacks := m.callbacks
  let instruments := m.instruments
  let s1 := callbacks.foldl (fun acc cb => env.Run cb pp.reader acc) s
  let r := instruments.foldl
    (fun acc inst => env.Collect inst pp.reader sequence acc.1 acc.2) (([] : List Out), s1)
  ({ Library := m.library, Instruments := r.1 }, r.2)

/-- Source: the loop `for meterIdx, meter := range ordered` of `Produce`,
filling `output.Scopes` in order. Following a pointer that is not allocated
is a run-time panic, here `none`. -/
def providerProducer.produceScopes {σ Out : Type} (env : Collaborators σ Out)
    (pp : providerProducer) (sequence : reader.Sequence) (mem : MeterHeap) :
    List MeterPtr → σ → Option (List (reader.Scope Out) × σ)
  | [], s => some ([], s)
  | ptr :: rest, s =>
    match mem[ptr]? with
    | none => none
    | some m =>
      let r := pp.produceMeter env sequence m s
      match providerProducer.produceScopes env pp sequence mem rest r.2 with
      | none => none
      | some t => some (r.1 :: t.1, t.2)

/-- Source: `Produce`. The result is the snapshot, the producer with its new
`lastCollect`, and the state the callbacks and instruments leave. -/
def providerProducer.Produce {σ Out : Type} (env : Collaborators σ Out) (now : time.Time)
    (mem : MeterHeap) (p : provider) (pp : providerProducer) (s : σ) :
    Option (reader.Metrics Out × providerProducer × σ) :=
  let ordered := p.getOrdered
  let sequence := pp.sequence p now
  match pp.produceScopes env sequence mem ordered s with
  | none => none
  | some t =>
    some ({ Resource := p.cfg.res, Scopes := t.1 }, { pp with lastCollect := sequence.Now }, t.2)

/-! ## Scopes, callbacks and instruments -/

/-- Source: `(*provider).Meter`. `NewMeterConfig` stands for
`metric.NewMeterConfig` of the API package. The result is the meter returned,
the provider and the memory of meters after the call. -/
def provider.Meter {MO : Type} (NewMeterConfig : List MO → MeterConfig) (mem : MeterHeap)
    (p : provider) (name : String) (opts : List MO) : MeterPtr × provider × MeterHeap :=
  let cfg := NewMeterConfig opts
  let lib : instrumentation.Library :=
    { Name := name, Version := cfg.InstrumentationVersion, SchemaURL := cfg.SchemaURL }
  match p.meters lib with
  | some m => (m, p, mem)
  | none =>
    let m : MeterPtr := mem.length
    let obj : meter :=
      { library := lib
        names := fun _ => []
        views := viewstate.New lib p.cfg.views p.cfg.readers
        instruments := []
        callbacks := [] }
    (m, { p with ordered := p.ordered ++ [m],
                 meters := fun l => if l = lib then some m else p.meters l },
      mem ++ [obj])

/-- Source: `(*meter).RegisterCallback`. `NewCallback` stands for
`asyncstate.NewCallback`, which returns a callback and an error (`none` for
`nil`). The result is the error returned and the meter after the call. -/
def meter.RegisterCallback {I F : Type}
    (NewCallback : List I → F → asyncstate.Callback × Option String)
    (m : meter) (insts : List I) (function : F) : Option String × meter :=
  let r := NewCallback insts function
  match r.2 with
  | none => (none, { m with callbacks := m.callbacks ++ [r.1] })
  | some e => (some e, m)

/-- Source: the loop `for _, found := range lookup` of `nameLookup`: the
first entry whose dynamic type is `T` and whose descriptor has the number
kind, the instrument kind and the unit asked for. -/
def nameLookup.scan (T : TypeTag) (nk : number.Kind) (ik : sdkinstrument.Kind)
    (unit : String) : List instrumentIface → Option Instrument
  | [] => none
  | found :: rest =>
    if found.dynType ≠ T then
      nameLookup.scan T nk ik unit rest
    else if found.Descriptor.NumberKind ≠ nk ∨ found.Descriptor.Kind ≠ ik ∨
        found.Descriptor.Unit ≠ unit then
      nameLookup.scan T nk ik unit rest
    else
      some found.value

/-- Source: `nameLookup[T]`. `NewConfig` stands for `instrument.NewConfig`.
The constructor `f` is a Go closure: besides building the instrument it may
change the meter, so it receives the meter and leaves the changed one. The
result is the pair returned (instrument and error, `none` for `nil`) and the
meter after the call. -/
def nameLookup {O : Type} (NewConfig : List O → instrument.Config) (T : TypeTag)
    (m : meter) (name : String) (opts : List O) (nk : number.Kind) (ik : sdkinstrument.Kind)
    (f : sdkinstrument.Descriptor → meter → Instrument × meter) :
    (Instrument × Option String) × meter :=
  let cfg := NewConfig opts
  let desc := sdkinstrument.NewDescriptor name ik nk cfg.Description cfg.Unit
  let lookup := m.names name
  match nameLookup.scan T nk ik cfg.Unit lookup with
  | some found => ((found, none), m)
  | none =>
    let r := f desc m
    ((r.1, none),
      { r.2 with names := fun n =>
          if n = name then r.2.names name ++ [{ dynType := T, value := r.1 }]
          else r.2.names n })

/-! ## Vocabulary of the statements -/

/-- An index entry is what the scan is looking for. -/
def Matches (T : TypeTag) (nk : number.Kind) (ik : sdkinstrument.Kind) (unit : String)
    (e : instrumentIface) : Prop :=
  e.dynType = T ∧ e.Descriptor.NumberKind = nk ∧ e.Descriptor.Kind = ik ∧
    e.Descriptor.Unit = unit

/-- The second of two `nameLookup` calls under one name, the first with type
parameter `T1`, options `opts1`, kinds `nk1`, `ik1` and constructor `f1`. -/
def secondLookup {O : Type} (NewConfig : List O → instrument.Config) (m : meter)
    (name : String) (T1 : TypeTag) (opts1 : List O) (nk1 : number.Kind)
    (ik1 : sdkinstrument.Kind) (f1 : sdkinstrument.Descriptor → meter → Instrument × meter)
    (T2 : TypeTag) (opts2 : List O) (nk2 : number.Kind) (ik2 : sdkinstrument.Kind)
    (f2 : sdkinstrument.Descriptor → meter → Instrument × meter) :
    (Instrument × Option String) × meter :=
  nameLookup NewConfig T2 (nameLookup NewConfig T1 m name opts1 nk1 ik1 f1).2 name opts2 nk2
    ik2 f2

/-- An instance of `instrument.NewConfig` for examples: the options are
configurations and the first one is taken. -/
def sampleNewConfig (opts : List instrument.Config) : instrument.Config :=
  opts.headD { Description := "", Unit := "" }

/-- An instance of `metric.NewMeterConfig` for examples: the options are
configurations and the first one is taken. -/
def sampleNewMeterConfig (opts : List MeterConfig) : MeterConfig :=
  opts.headD { InstrumentationVersion := "", SchemaURL := "" }

/-- An instance of `asyncstate.NewCallback` for examples: an empty instrument
set is refused, otherwise the callback at the address given is returned. -/
def sampleNewCallback (insts : List Nat) (function : Nat) : asyncstate.Callback × Option String :=
  if insts = [] then ({ addr := 0 }, some "no instruments") else ({ addr := function }, none)

/-- An instance of the collaborators for examples: the state counts the
callbacks run, an instrument result is the address of the instrument. -/
def sampleCollaborators : Collaborators Nat Nat :=
  { Run := fun _ _ s => s + 1
    Collect := fun i _ _ out s => (out ++ [i.value.addr], s) }

/-- A constructor that stores the descriptor it is given in the instrument it
builds and leaves the by-name index of the meter alone. -/
def KeepsDescriptor (f : sdkinstrument.Descriptor → meter → Instrument × meter) : Prop :=
  ∀ (d : sdkinstrument.Descriptor) (m : meter),
    (f d m).1.descriptor = d ∧ (f d m).2.names = m.names

/-- A constructor without any effect on the meter, building the instrument at
address `a`. -/
def plainConstructor (a : Nat) : sdkinstrument.Descriptor → meter → Instrument × meter :=
  fun d m => ({ addr := a, descriptor := d }, m)

/-- A constructor that also appends the instrument, with dynamic type `T`, to
the instrument list of the meter. -/
def listingConstructor (T : TypeTag) (a : Nat) :
    sdkinstrument.Descriptor → meter → Instrument × meter :=
  fun d m =>
    ({ addr := a, descriptor := d },
      { m with instruments :=
          m.instruments ++ [{ dynType := T, value := { addr := a, descriptor := d } }] })

/-- Two index entries with the same dynamic type, instrument kind, number
kind and unit. -/
def SameIdentity (a b : instrumentIface) : Prop :=
  a.dynType = b.dynType ∧ a.Descriptor.Kind = b.Descriptor.Kind ∧
    a.Descriptor.NumberKind = b.Descriptor.NumberKind ∧
    a.Descriptor.Unit = b.Descriptor.Unit

/-- Two index entries with the same instrument kind, number kind and unit,
whatever their dynamic types. -/
def SameKindUnit (a b : instrumentIface) : Prop :=
  a.Descriptor.Kind = b.Descriptor.Kind ∧
    a.Descriptor.NumberKind = b.Descriptor.NumberKind ∧
    a.Descriptor.Unit = b.Descriptor.Unit

/-- A meter as `Meter` creates it: no instrument, no callback. -/
def newMeter (lib : instrumentation.Library) (c : viewstate.Compiler) : meter :=
  { library := lib, names := fun _ => [], views := c, instruments := [], callbacks := [] }

/-- The new meter of a scope "lib" without version and schema, for examples. -/
def sampleMeter : meter :=
  newMeter { Name := "lib", Version := "", SchemaURL := "" }
    (viewstate.New { Name := "lib", Version := "", SchemaURL := "" } [] [])

/-- The meter states reachable from a new meter by `nameLookup` calls whose
type parameter satisfies `P` and whose constructors keep the descriptor. -/
inductive Reachable {O : Type} (NewConfig : List O → instrument.Config)
    (P : TypeTag → Prop) : meter → Prop where
  | start (lib : instrumentation.Library) (c : viewstate.Compiler) :
      Reachable NewConfig P (newMeter lib c)
  | call (m : meter) (T : TypeTag) (name : String) (opts : List O) (nk : number.Kind)
      (ik : sdkinstrument.Kind) (f : sdkinstrument.Descriptor → meter → Instrument × meter) :
      Reachable NewConfig P m → P T → KeepsDescriptor f →
      Reachable NewConfig P (nameLookup NewConfig T m name opts nk ik f).2

/-- One call of a provider option, as written by the caller of `New`. -/
inductive OptionCall where
  | withResource (res : resource.Resource)
  | withReader (r : reader.Reader)
  | withViews (vs : List views.View)

/-- The option a call denotes. -/
def OptionCall.toOption : OptionCall → ProviderOption
  | OptionCall.withResource res => WithResource res
  | OptionCall.withReader r => WithReader r
  | OptionCall.withViews vs => WithViews vs

/-- The argument of the last `WithResource` of the list, `defaultRes` when
there is none. -/
def expectedResource (defaultRes : resource.Resource) (calls : List OptionCall) :
    resource.Resource :=
  ((calls.filterMap (fun c =>
    match c with
    | OptionCall.withResource res => some res
    | _ => none)).getLast?).getD defaultRes

/-- The arguments of the `WithReader` calls of the list, in order. -/
def expectedReaders (calls : List OptionCall) : List reader.Reader :=
  calls.filterMap (fun c =>
    match c with
    | OptionCall.withReader r => some r
    | _ => none)

/-- The concatenation of the argument lists of the `WithViews` calls, in
order. -/
def expectedViews (calls : List OptionCall) : List views.View :=
  (calls.filterMap (fun c =>
    match c with
    | OptionCall.withViews vs => some vs
    | _ => none)).flatten

/-- The library a `Meter` call with these arguments asks for. -/
def libraryOf {MO : Type} (NewMeterConfig : List MO → MeterConfig)
    (call : String × List MO) : instrumentation.Library :=
  { Name := call.1, Version := (NewMeterConfig call.2).InstrumentationVersion,
    SchemaURL := (NewMeterConfig call.2).SchemaURL }

/-- The `Meter` calls of a list one after the other. -/
def meterCalls {MO : Type} (NewMeterConfig : List MO → MeterConfig)
    (st : provider × MeterHeap) (calls : List (String × List MO)) : provider × MeterHeap :=
  calls.foldl
    (fun acc call =>
      let r := acc.1.Meter NewMeterConfig acc.2 call.1 call.2
      (r.2.1, r.2.2))
    st

/-- The collaborators `env` with a log added to the state: every `Collect`
call appends the `reader.Sequence` it is handed to the log and otherwise does
what `env` does. The log is what the instruments see of the sequence that
`Produce` builds. -/
def Collaborators.recording {σ Out : Type} (env : Collaborators σ Out) :
    Collaborators (σ × List reader.Sequence) Out :=
  { Run := fun cb r s => (env.Run cb r s.1, s.2)
    Collect := fun inst r sequence out s =>
      ((env.Collect inst r sequence out s.1).1,
        ((env.Collect inst r sequence out s.1).2, s.2 ++ [sequence])) }

/-- The number of `Collect` calls of one cycle: the instruments of the meters
a list of pointers refers to. -/
def instrumentCount (mem : MeterHeap) (ptrs : List MeterPtr) : Nat :=
  (ptrs.map (fun q =>
    match mem[q]? with
    | some m => m.instruments.length
    | none => 0)).sum

/-- The meter of the scope "lib" after the counter "requests" was created by
a constructor that lists it among the instruments, for examples. -/
def sampleInstrumentedMeter : meter :=
  (nameLookup sampleNewConfig 0 sampleMeter "requests" [] 0 0 (listingConstructor 0 1)).2

/-- The provider constructed at clock reading 100 with one reader, after the
scope "lib" was asked for, for examples. -/
def sampleProvider : provider :=
  (meterCalls sampleNewMeterConfig ((New ⟨0⟩ 100 [WithReader ⟨1⟩]).1, []) [("lib", [])]).1

/-- The distinct elements of a list in the order of their first occurrence. -/
def firstOccurrences {α : Type} [DecidableEq α] (l : List α) : List α :=
  (l.reverse.dedup).reverse

/-- The libraries of the meters a list of pointers refers to. -/
def librariesAt (mem : MeterHeap) (ptrs : List MeterPtr) : List (Option instrumentation.Library) :=
  ptrs.map (fun q => (mem[q]?).map meter.library)

end metric

namespace sum

/-! ## Arithmetic of wrapped integers -/

theorem wrapInt64_of_inRange (x : Int) (h1 : -9223372036854775808 ≤ x)
    (h2 : x < 9223372036854775808) : wrapInt64 x = x := by
  unfold wrapInt64; omega

theorem wrapInt64_val (a : Int64) : wrapInt64 a.val = a.val :=
  wrapInt64_of_inRange a.val a.lo a.hi

theorem wrapInt64_add_left (x y : Int) : wrapInt64 (wrapInt64 x + y) = wrapInt64 (x + y) := by
  unfold wrapInt64; omega

theorem wrapInt64_add_right (x y : Int) : wrapInt64 (x + wrapInt64 y) = wrapInt64 (x + y) := by
  unfold wrapInt64; omega

theorem wrapInt64_sub_left (x y : Int) : wrapInt64 (wrapInt64 x - y) = wrapInt64 (x - y) := by
  unfold wrapInt64; omega

namespace Int64

theorem add_val (a b : Int64) : (a + b).val = wrapInt64 (a.val + b.val) := rfl

theorem sub_val (a b : Int64) : (a - b).val = wrapInt64 (a.val - b.val) := rfl

theorem zero_val : (0 : Int64).val = 0 := rfl

theorem add_zero_eq (a : Int64) : a + 0 = a := by
  apply ext_val; rw [add_val, zero_val, Int.add_zero, wrapInt64_val]

theorem zero_add_eq (a : Int64) : 0 + a = a := by
  apply ext_val; rw [add_val, zero_val, Int.zero_add, wrapInt64_val]

theorem add_comm_eq (a b : Int64) : a + b = b + a := by
  apply ext_val; rw [add_val, add_val, Int.add_comm]

theorem add_assoc_eq (a b c : Int64) : a + b + c = a + (b + c) := by
  apply ext_val
  rw [add_val, add_val, add_val, add_val, wrapInt64_add_left, wrapInt64_add_right,
    Int.add_assoc]

theorem sub_add_cancel_eq (a b : Int64) : a - b + b = a := by
  apply ext_val
  rw [add_val, sub_val, wrapInt64_add_left, Int.sub_add_cancel, wrapInt64_val]

end Int64

/-! ## Reading the heap after a store -/

theorem setValue_same (h : Heap) (p : Ptr) (v : Int64) : (h.setValue p v p).Value = v := by
  simp [Heap.setValue]

theorem setValue_other (h : Heap) (p q : Ptr) (v : Int64) (hne : q ≠ p) :
    h.setValue p v q = h q := by
  simp [Heap.setValue, hne]

theorem applyUpdates_other (vs : List Int64) (h : Heap) (s q : Ptr) (hne : q ≠ s) :
    applyUpdates h s vs q = h q := by
  induction vs generalizing h with
  | nil => rfl
  | cons v vs ih =>
    show applyUpdates (Methods.Update h s v) s vs q = h q
    rw [ih]
    exact setValue_other h s q _ hne

theorem applyUpdates_val (vs : List Int64) (h : Heap) (s : Ptr) :
    (applyUpdates h s vs s).Value.val = wrapInt64 ((h s).Value.val + sumVals vs) := by
  induction vs generalizing h with
  | nil => simp [applyUpdates, sumVals, wrapInt64_val]
  | cons v vs ih =>
    show (applyUpdates (Methods.Update h s v) s vs s).Value.val = _
    rw [ih]
    have hv : ((Methods.Update h s v) s).Value = (h s).Value + v := setValue_same h s _
    rw [hv, Int64.add_val, wrapInt64_add_left]
    simp [sumVals, Int.add_assoc]

theorem sumVals_take_drop (vs : List Int64) (k : Nat) :
    sumVals (vs.take k) + sumVals (vs.drop k) = sumVals vs := by
  unfold sumVals
  rw [← List.sum_append, ← List.map_append, List.take_append_drop]

theorem sumVals_perm {vs ws : List Int64} (hp : ws.Perm vs) : sumVals ws = sumVals vs := by
  unfold sumVals
  exact (hp.map Int64.val).sum_eq

theorem synchronizedMove_dest (h : Heap) (src dst : Ptr) :
    (Methods.SynchronizedMove h src dst dst).Value = (h src).Value :=
  setValue_same _ dst _

theorem synchronizedMove_src (h : Heap) (src dst : Ptr) (hne : src ≠ dst) :
    (Methods.SynchronizedMove h src dst src).Value = 0 := by
  show ((h.setValue src 0).setValue dst (h src).Value src).Value = 0
  rw [setValue_other _ dst src _ hne, setValue_same]

/-! ## Harvest: `SynchronizedMove` -/

/-- C1: for distinct source and destination states, `SynchronizedMove` leaves
the destination holding the value the source held before the call, whatever
the destination held, leaves the source at the identity `0`, and touches no
other state. -/
theorem synchronizedMove_moves_and_resets (h : Heap) (source destination : Ptr)
    (hne : source ≠ destination) :
    (Methods.SynchronizedMove h source destination destination).Value = (h source).Value ∧
    (Methods.SynchronizedMove h source destination source).Value = 0 ∧
    ∀ q : Ptr, q ≠ source → q ≠ destination →
      Methods.SynchronizedMove h source destination q = h q := by
  refine ⟨synchronizedMove_dest h source destination,
    synchronizedMove_src h source destination hne, ?_⟩
  intro q hqs hqd
  show (h.setValue source 0).setValue destination (h source).Value q = h q
  rw [setValue_other _ destination q _ hqd, setValue_other _ source q _ hqs]

/-- Instance of C1: source at address 0 holding 5, destination at address 1
holding 9. -/
theorem synchronizedMove_moves_and_resets_witness :
    (0 : Ptr) ≠ 1 ∧
    ((Methods.SynchronizedMove (heapOf [5, 9]) 0 1
        1).Value =
      ((heapOf [5, 9]) 0).Value ∧
    (Methods.SynchronizedMove (heapOf [5, 9]) 0 1
        0).Value = 0 ∧
    ∀ q : Ptr, q ≠ 0 → q ≠ 1 →
      Methods.SynchronizedMove (heapOf [5, 9]) 0 1 q =
        (heapOf [5, 9]) q) :=
  ⟨by decide,
    synchronizedMove_moves_and_resets
      (heapOf [5, 9]) 0 1 (by decide)⟩

/-- C2: apply the first `k` updates to `s`, then one `SynchronizedMove` from
`s` into a separate state `d`, then the remaining updates to `s`, each call
being one atomic step. The harvested value plus the residual value is then the
initial value of `s` plus the sum of all updates, in `int64` wrapping
arithmetic: no update is lost and none is counted twice. -/
theorem update_harvest_conservation (h : Heap) (s d : Ptr) (vs : List Int64) (k : Nat)
    (hne : s ≠ d) :
    ((applyUpdates (Methods.SynchronizedMove (applyUpdates h s (vs.take k)) s d) s
          (vs.drop k) d).Value +
        (applyUpdates (Methods.SynchronizedMove (applyUpdates h s (vs.take k)) s d) s
          (vs.drop k) s).Value).val =
      wrapInt64 ((h s).Value.val + sumVals vs) := by
  have hd : (applyUpdates (Methods.SynchronizedMove (applyUpdates h s (vs.take k)) s d) s
      (vs.drop k) d) = Methods.SynchronizedMove (applyUpdates h s (vs.take k)) s d d :=
    applyUpdates_other _ _ s d (Ne.symm hne)
  rw [Int64.add_val, hd, synchronizedMove_dest, applyUpdates_val, applyUpdates_val,
    synchronizedMove_src _ s d hne, Int64.zero_val, Int.zero_add, wrapInt64_add_left,
    wrapInt64_add_right, Int.add_assoc, sumVals_take_drop]

/-- Instance of C2: updates 4, -1, 10 on a state holding 3, harvested after
the first update. -/
theorem update_harvest_conservation_witness :
    (0 : Ptr) ≠ 1 ∧
    ((applyUpdates (Methods.SynchronizedMove (applyUpdates (constHeap (Int64.ofInt 3)) 0
          ([Int64.ofInt 4, Int64.ofInt (-1), Int64.ofInt 10].take 1)) 0 1) 0
          ([Int64.ofInt 4, Int64.ofInt (-1), Int64.ofInt 10].drop 1) 1).Value +
        (applyUpdates (Methods.SynchronizedMove (applyUpdates (constHeap (Int64.ofInt 3)) 0
          ([Int64.ofInt 4, Int64.ofInt (-1), Int64.ofInt 10].take 1)) 0 1) 0
          ([Int64.ofInt 4, Int64.ofInt (-1), Int64.ofInt 10].drop 1) 0).Value).val =
      wrapInt64 (((constHeap (Int64.ofInt 3)) 0).Value.val +
        sumVals [Int64.ofInt 4, Int64.ofInt (-1), Int64.ofInt 10]) :=
  ⟨by decide,
    update_harvest_conservation (constHeap (Int64.ofInt 3)) 0 1
      [Int64.ofInt 4, Int64.ofInt (-1), Int64.ofInt 10] 1 (by decide)⟩

/-! ## `HasData` and `Init` -/

/-- What the body of `HasData` computes: it answers `true` exactly on the
identity. -/
theorem hasData_eq_true_iff (h : Heap) (p : Ptr) :
    Methods.HasData h p = true ↔ (h p).Value = 0 := by
  simp [Methods.HasData]

/-- C3: `HasData` evaluated on a freshly reset state and on the same state
after an update with the non-zero value 5: the source answers `true` for the
reset state and `false` once the state holds 5. -/
theorem hasData_on_reset_and_updated :
    Methods.HasData (Methods.Reset (constHeap (Int64.ofInt 7)) 0) 0 = true ∧
    (Methods.Update (Methods.Reset (constHeap (Int64.ofInt 7)) 0) 0 (Int64.ofInt 5) 0).Value.val
      = 5 ∧
    Methods.HasData
      (Methods.Update (Methods.Reset (constHeap (Int64.ofInt 7)) 0) 0 (Int64.ofInt 5)) 0
      = false := by
  decide

/-- C4, as stated, fails: a state holding 7 still holds 7 after `Init`. -/
theorem init_keeps_nonzero_value :
    (Methods.Init (constHeap (Int64.ofInt 7)) 0 () 0).Value.val = 7 ∧
    (Methods.Init (constHeap (Int64.ofInt 7)) 0 () 0).Value ≠ 0 := by
  decide

/-- C4, amended: `Init` changes no state, so the state holds after the call
what it held before, and it holds the identity `0` after `Init` exactly when
it held `0` before (storage that is zero to start). -/
theorem init_leaves_value {Config : Type} (h : Heap) (s : Ptr) (cfg : Config) :
    Methods.Init h s cfg = h ∧
    (Methods.Init h s cfg s).Value = (h s).Value ∧
    ((Methods.Init h s cfg s).Value = 0 ↔ (h s).Value = 0) :=
  ⟨rfl, rfl, Iff.rfl⟩

/-! ## The counter scenario -/

/-- C5: start from a state holding `0`, apply the updates of a list in any
order, harvest into a separate state, and harvest again without an update in
between (into any state `d2`). The first harvest is the sum of the list
(wrapped to `int64`), the second is the identity `0`. -/
theorem harvest_sum_then_identity (h : Heap) (s d1 d2 : Ptr) (vs ws : List Int64)
    (hzero : (h s).Value = 0) (hperm : ws.Perm vs) (hne1 : s ≠ d1) :
    (Methods.SynchronizedMove (applyUpdates h s ws) s d1 d1).Value.val =
      wrapInt64 (sumVals vs) ∧
    (Methods.SynchronizedMove (Methods.SynchronizedMove (applyUpdates h s ws) s d1) s d2
      d2).Value = 0 := by
  constructor
  · rw [synchronizedMove_dest, applyUpdates_val, hzero, Int64.zero_val, Int.zero_add,
      sumVals_perm hperm]
  · rw [synchronizedMove_dest, synchronizedMove_src _ s d1 hne1]

/-- Instance of C5: the values 1, 2, 3 arriving in the order 3, 1, 2 are
harvested as 6, and the next harvest reads 0. -/
theorem harvest_sum_then_identity_witness :
    ((constHeap 0) 0).Value = 0 ∧
    [Int64.ofInt 3, Int64.ofInt 1, Int64.ofInt 2].Perm
      [Int64.ofInt 1, Int64.ofInt 2, Int64.ofInt 3] ∧
    (0 : Ptr) ≠ 1 ∧
    wrapInt64 (sumVals [Int64.ofInt 1, Int64.ofInt 2, Int64.ofInt 3]) = 6 ∧
    ((Methods.SynchronizedMove
        (applyUpdates (constHeap 0) 0 [Int64.ofInt 3, Int64.ofInt 1, Int64.ofInt 2]) 0 1
        1).Value.val =
      wrapInt64 (sumVals [Int64.ofInt 1, Int64.ofInt 2, Int64.ofInt 3]) ∧
    (Methods.SynchronizedMove (Methods.SynchronizedMove
        (applyUpdates (constHeap 0) 0 [Int64.ofInt 3, Int64.ofInt 1, Int64.ofInt 2]) 0 1) 0 2
      2).Value = 0) :=
  ⟨rfl, by decide, by decide, by decide,
    harvest_sum_then_identity (constHeap 0) 0 1 2
      [Int64.ofInt 1, Int64.ofInt 2, Int64.ofInt 3]
      [Int64.ofInt 3, Int64.ofInt 1, Int64.ofInt 2] rfl (by decide) (by decide)⟩

/-! ## The exported view -/

/-- C6, as stated, fails: the view taken from a state holding 1 reports 2
after `Update(s, 1)`, 0 after `Reset(s)` and 0 after `SynchronizedMove(s, d)`,
not the value 1 the state held when `Aggregation` was called. -/
theorem aggregation_view_follows_state :
    (Methods.Aggregation 0).Sum (constHeap (Int64.ofInt 1))
      = some (ToNumber (Int64.ofInt 1), none) ∧
    (Methods.Aggregation 0).Sum (Methods.Update (constHeap (Int64.ofInt 1)) 0 (Int64.ofInt 1))
      = some (ToNumber (Int64.ofInt 2), none) ∧
    (Methods.Aggregation 0).Sum (Methods.Reset (constHeap (Int64.ofInt 1)) 0)
      = some (ToNumber (Int64.ofInt 0), none) ∧
    (Methods.Aggregation 0).Sum (Methods.SynchronizedMove (constHeap (Int64.ofInt 1)) 0 1)
      = some (ToNumber (Int64.ofInt 0), none) ∧
    ToNumber (Int64.ofInt 2) ≠ ToNumber (Int64.ofInt 1) ∧
    ToNumber (Int64.ofInt 0) ≠ ToNumber (Int64.ofInt 1) := by
  decide

/-- C6, amended: the view returned by `Aggregation(s)` is the pointer `s`
itself (`Storage` gives it back), so `a.Sum()` reports, without error, the
value `s` holds when `Sum` is called: the old value plus `v` after
`Update(s, v)`, the identity after `Reset(s)`, the identity after
`SynchronizedMove(s, d)` into another state, and the value held when
`Aggregation` was called in every heap where `s` still holds that value. -/
theorem aggregation_view_is_live (h h1 : Heap) (s d : Ptr) (v : Int64) :
    Methods.Storage (Methods.Aggregation s) = some s ∧
    (Methods.Aggregation s).Sum h1 = some (ToNumber (h1 s).Value, none) ∧
    (Methods.Aggregation s).Sum (Methods.Update h s v)
      = some (ToNumber ((h s).Value + v), none) ∧
    (Methods.Aggregation s).Sum (Methods.Reset h s) = some (ToNumber 0, none) ∧
    (Methods.Aggregation s).Sum (Methods.SynchronizedMove h s d)
      = some (ToNumber (if s = d then (h s).Value else 0), none) ∧
    ((h1 s).Value = (h s).Value →
      (Methods.Aggregation s).Sum h1 = (Methods.Aggregation s).Sum h) := by
  refine ⟨rfl, rfl, ?_, ?_, ?_, ?_⟩
  · show some (ToNumber (Methods.Update h s v s).Value, none) = _
    rw [show (Methods.Update h s v s).Value = (h s).Value + v from setValue_same h s _]
  · show some (ToNumber (Methods.Reset h s s).Value, none) = _
    rw [show (Methods.Reset h s s).Value = 0 from setValue_same h s _]
  · show some (ToNumber (Methods.SynchronizedMove h s d s).Value, none) = _
    by_cases hsd : s = d
    · subst hsd
      rw [synchronizedMove_dest, if_pos rfl]
    · rw [synchronizedMove_src h s d hsd, if_neg hsd]
  · intro hv
    show some (ToNumber (h1 s).Value, none) = some (ToNumber (h s).Value, none)
    rw [hv]

/-- Instance of C6 amended: a heap in which `s` holds again the value it held
when the view was taken (an update by 4 followed by an update by -4). -/
theorem aggregation_view_is_live_witness :
    Methods.Storage (Methods.Aggregation 0) = some 0 ∧
    (Methods.Aggregation 0).Sum
        (applyUpdates (constHeap (Int64.ofInt 1)) 0 [Int64.ofInt 4, Int64.ofInt (-4)])
      = (Methods.Aggregation 0).Sum (constHeap (Int64.ofInt 1)) :=
  ⟨(aggregation_view_is_live (constHeap (Int64.ofInt 1))
      (applyUpdates (constHeap (Int64.ofInt 1)) 0 [Int64.ofInt 4, Int64.ofInt (-4)]) 0 1
      0).1,
    (aggregation_view_is_live (constHeap (Int64.ofInt 1))
      (applyUpdates (constHeap (Int64.ofInt 1)) 0 [Int64.ofInt 4, Int64.ofInt (-4)]) 0 1
      0).2.2.2.2.2 (by decide)⟩

/-! ## `Merge` and `SubtractSwap` -/

theorem merge_to (h : Heap) (a b : Ptr) :
    (Methods.Merge h a b a).Value = (h a).Value + (h b).Value :=
  setValue_same h a _

theorem merge_other (h : Heap) (a b q : Ptr) (hne : q ≠ a) :
    Methods.Merge h a b q = h q :=
  setValue_other h a q _ hne

/-- C7: `Merge` is associative. With `a` a state separate from `b` and `c`,
merging `b` into `a` and then `c` into `a` leaves in `a` the value that
merging `c` into `b` and then `b` into `a` leaves there (`int64` wrapping
arithmetic): the wrapped sum of the three values. -/
theorem merge_assoc (h : Heap) (a b c : Ptr) (hab : a ≠ b) (hac : a ≠ c) :
    (Methods.Merge (Methods.Merge h a b) a c a).Value =
      (Methods.Merge (Methods.Merge h b c) a b a).Value ∧
    (Methods.Merge (Methods.Merge h a b) a c a).Value.val =
      wrapInt64 ((h a).Value.val + (h b).Value.val + (h c).Value.val) := by
  have hl : (Methods.Merge (Methods.Merge h a b) a c a).Value =
      (h a).Value + (h b).Value + (h c).Value := by
    rw [merge_to, merge_to, merge_other h a b c (Ne.symm hac)]
  have hr : (Methods.Merge (Methods.Merge h b c) a b a).Value =
      (h a).Value + ((h b).Value + (h c).Value) := by
    rw [merge_to, merge_to, merge_other h b c a hab]
  refine ⟨?_, ?_⟩
  · rw [hl, hr, Int64.add_assoc_eq]
  · rw [hl, Int64.add_val, Int64.add_val, wrapInt64_add_left]

/-- Instance of C7: values near the upper end of the range, where the
additions wrap. -/
theorem merge_assoc_witness :
    (0 : Ptr) ≠ 1 ∧ (0 : Ptr) ≠ 2 ∧
    ((Methods.Merge (Methods.Merge
        (heapOf [9223372036854775807, 5, -3]) 0 1) 0 2 0).Value =
      (Methods.Merge (Methods.Merge
        (heapOf [9223372036854775807, 5, -3]) 1 2) 0 1 0).Value ∧
    (Methods.Merge (Methods.Merge
        (heapOf [9223372036854775807, 5, -3]) 0 1) 0 2 0).Value.val =
      wrapInt64 (((heapOf [9223372036854775807, 5, -3]) 0).Value.val +
        ((heapOf [9223372036854775807, 5, -3]) 1).Value.val +
        ((heapOf [9223372036854775807, 5, -3]) 2).Value.val)) :=
  ⟨by decide, by decide,
    merge_assoc
      (heapOf [9223372036854775807, 5, -3]) 0 1 2 (by decide) (by decide)⟩

/-- C8: the state produced by `Reset` holds the identity `0`, and with `e` a
state holding `0`, `Merge(a, e)` leaves the value of `a` unchanged while
`Merge(e, a)` leaves in `e` the value of `a`. -/
theorem merge_identity (h : Heap) (a e : Ptr) (hzero : (h e).Value = 0) :
    (Methods.Reset h e e).Value = 0 ∧
    (Methods.Merge h a e a).Value = (h a).Value ∧
    (Methods.Merge h e a e).Value = (h a).Value := by
  refine ⟨setValue_same h e _, ?_, ?_⟩
  · rw [merge_to, hzero, Int64.add_zero_eq]
  · rw [merge_to, hzero, Int64.zero_add_eq]

/-- Instance of C8: `a` holds -12, the identity state is obtained by `Reset`. -/
theorem merge_identity_witness :
    ((Methods.Reset (constHeap (Int64.ofInt (-12))) 1) 1).Value = 0 ∧
    ((Methods.Reset (Methods.Reset (constHeap (Int64.ofInt (-12))) 1) 1 1).Value = 0 ∧
    (Methods.Merge (Methods.Reset (constHeap (Int64.ofInt (-12))) 1) 0 1 0).Value =
      ((Methods.Reset (constHeap (Int64.ofInt (-12))) 1) 0).Value ∧
    (Methods.Merge (Methods.Reset (constHeap (Int64.ofInt (-12))) 1) 1 0 1).Value =
      ((Methods.Reset (constHeap (Int64.ofInt (-12))) 1) 0).Value) :=
  ⟨by decide,
    merge_identity (Methods.Reset (constHeap (Int64.ofInt (-12))) 1) 0 1 (by decide)⟩

/-- C9: for distinct states `a` and `b`, `Merge(to=a, from=b)` leaves in `a`
the wrapped sum of the two values, which is also what `Merge(to=b, from=a)`
leaves in `b`, and it leaves the `from` state `b` unchanged. -/
theorem merge_is_commutative_addition (h : Heap) (a b : Ptr) (hne : a ≠ b) :
    (Methods.Merge h a b a).Value = (h a).Value + (h b).Value ∧
    (Methods.Merge h a b a).Value.val = wrapInt64 ((h a).Value.val + (h b).Value.val) ∧
    (Methods.Merge h a b a).Value = (Methods.Merge h b a b).Value ∧
    Methods.Merge h a b b = h b := by
  refine ⟨merge_to h a b, ?_, ?_, merge_other h a b b (Ne.symm hne)⟩
  · rw [merge_to, Int64.add_val]
  · rw [merge_to, merge_to, Int64.add_comm_eq]

/-- Instance of C9: `a` holds the least `int64`, `b` holds -1, so the sum
wraps. -/
theorem merge_is_commutative_addition_witness :
    (0 : Ptr) ≠ 1 ∧
    ((Methods.Merge (heapOf [-9223372036854775808, -1]) 0 1 0).Value =
      ((heapOf [-9223372036854775808, -1]) 0).Value
        + ((heapOf [-9223372036854775808, -1]) 1).Value ∧
    (Methods.Merge (heapOf [-9223372036854775808, -1]) 0 1 0).Value.val =
      wrapInt64 (((heapOf [-9223372036854775808, -1]) 0).Value.val +
        ((heapOf [-9223372036854775808, -1]) 1).Value.val) ∧
    (Methods.Merge (heapOf [-9223372036854775808, -1]) 0 1 0).Value =
      (Methods.Merge (heapOf [-9223372036854775808, -1]) 1 0 1).Value ∧
    Methods.Merge (heapOf [-9223372036854775808, -1]) 0 1 1 =
      (heapOf [-9223372036854775808, -1]) 1) :=
  ⟨by decide,
    merge_is_commutative_addition
      (heapOf [-9223372036854775808, -1]) 0 1
      (by decide)⟩

/-- C10: for distinct states, `SubtractSwap(newValue, oldValueModified)`
stores `newValue.Value - oldValueModified.Value` (wrapping) into
`oldValueModified` and leaves `newValue` unchanged; merging a state `keep`
that holds the original old value into the result restores `newValue.Value`. -/
theorem subtractSwap_delta (h : Heap) (newValue oldValueModified keep : Ptr)
    (hne : newValue ≠ oldValueModified) (hkeep : keep ≠ oldValueModified)
    (hcopy : (h keep).Value = (h oldValueModified).Value) :
    (Methods.SubtractSwap h newValue oldValueModified oldValueModified).Value =
      (h newValue).Value - (h oldValueModified).Value ∧
    (Methods.SubtractSwap h newValue oldValueModified oldValueModified).Value.val =
      wrapInt64 ((h newValue).Value.val - (h oldValueModified).Value.val) ∧
    Methods.SubtractSwap h newValue oldValueModified newValue = h newValue ∧
    (Methods.Merge (Methods.SubtractSwap h newValue oldValueModified) oldValueModified keep
      oldValueModified).Value = (h newValue).Value := by
  have hs : (Methods.SubtractSwap h newValue oldValueModified oldValueModified).Value =
      (h newValue).Value - (h oldValueModified).Value := setValue_same h oldValueModified _
  refine ⟨hs, ?_, setValue_other h oldValueModified newValue _ hne, ?_⟩
  · rw [hs, Int64.sub_val]
  · rw [merge_to, hs,
      show Methods.SubtractSwap h newValue oldValueModified keep = h keep from
        setValue_other h oldValueModified keep _ hkeep,
      hcopy, Int64.sub_add_cancel_eq]

/-- Instance of C10: the new snapshot holds 100, the old one 30, and a third
state keeps a copy of the old 30: the delta is 70 and merging gives back 100. -/
theorem subtractSwap_delta_witness :
    (0 : Ptr) ≠ 1 ∧ (2 : Ptr) ≠ 1 ∧
    ((heapOf [100, 30, 30]) 2).Value =
      ((heapOf [100, 30, 30]) 1).Value ∧
    ((Methods.SubtractSwap (heapOf [100, 30, 30]) 0 1 1).Value =
      ((heapOf [100, 30, 30]) 0).Value -
        ((heapOf [100, 30, 30]) 1).Value ∧
    (Methods.SubtractSwap (heapOf [100, 30, 30]) 0 1 1).Value.val =
      wrapInt64 (((heapOf [100, 30, 30]) 0).Value.val -
        ((heapOf [100, 30, 30]) 1).Value.val) ∧
    Methods.SubtractSwap (heapOf [100, 30, 30]) 0 1 0 =
      (heapOf [100, 30, 30]) 0 ∧
    (Methods.Merge (Methods.SubtractSwap (heapOf [100, 30, 30]) 0 1) 1 2 1).Value =
      ((heapOf [100, 30, 30]) 0).Value) :=
  ⟨by decide, by decide, by decide,
    subtractSwap_delta (heapOf [100, 30, 30]) 0 1 2 (by decide) (by decide) (by decide)⟩

end sum

namespace metric

/-! ## The scan of the by-name index -/

theorem scan_cons_of_matches (T : TypeTag) (nk : number.Kind) (ik : sdkinstrument.Kind)
    (unit : String) (e : instrumentIface) (l : List instrumentIface)
    (h : Matches T nk ik unit e) : nameLookup.scan T nk ik unit (e :: l) = some e.value := by
  obtain ⟨h1, h2, h3, h4⟩ := h
  simp [nameLookup.scan, h1, h2, h3, h4]

theorem scan_cons_of_not_matches (T : TypeTag) (nk : number.Kind) (ik : sdkinstrument.Kind)
    (unit : String) (e : instrumentIface) (l : List instrumentIface)
    (h : ¬ Matches T nk ik unit e) :
    nameLookup.scan T nk ik unit (e :: l) = nameLookup.scan T nk ik unit l := by
  unfold Matches at h
  by_cases h1 : e.dynType = T
  · have h2 : e.Descriptor.NumberKind ≠ nk ∨ e.Descriptor.Kind ≠ ik ∨
        e.Descriptor.Unit ≠ unit := by
      by_contra hc
      push_neg at hc
      exact h ⟨h1, hc.1, hc.2.1, hc.2.2⟩
    simp [nameLookup.scan, h1, h2]
  · simp [nameLookup.scan, h1]

theorem scan_eq_none_iff (T : TypeTag) (nk : number.Kind) (ik : sdkinstrument.Kind)
    (unit : String) (l : List instrumentIface) :
    nameLookup.scan T nk ik unit l = none ↔ ∀ e ∈ l, ¬ Matches T nk ik unit e := by
  induction l with
  | nil => simp [nameLookup.scan]
  | cons e l ih =>
    by_cases h : Matches T nk ik unit e
    · rw [scan_cons_of_matches T nk ik unit e l h]
      simp only [reduceCtorEq, List.mem_cons, forall_eq_or_imp, false_iff, not_and]
      intro hne
      exact absurd h hne
    · rw [scan_cons_of_not_matches T nk ik unit e l h, ih]
      simp [h]

theorem scan_eq_some (T : TypeTag) (nk : number.Kind) (ik : sdkinstrument.Kind)
    (unit : String) (l : List instrumentIface) (v : Instrument)
    (h : nameLookup.scan T nk ik unit l = some v) :
    ({ dynType := T, value := v } : instrumentIface) ∈ l ∧
      Matches T nk ik unit { dynType := T, value := v } := by
  induction l with
  | nil => simp [nameLookup.scan] at h
  | cons e l ih =>
    by_cases hm : Matches T nk ik unit e
    · rw [scan_cons_of_matches T nk ik unit e l hm] at h
      have hv : e.value = v := Option.some.inj h
      have he : e = { dynType := T, value := v } := by
        cases e
        simp only [Matches] at hm
        simp only at hv
        simp [hm.1, hv]
      rw [← he]
      exact ⟨List.mem_cons_self e l, hm⟩
    · rw [scan_cons_of_not_matches T nk ik unit e l hm] at h
      exact ⟨List.mem_cons_of_mem e (ih h).1, (ih h).2⟩

theorem scan_append_of_some (T : TypeTag) (nk : number.Kind) (ik : sdkinstrument.Kind)
    (unit : String) (l l2 : List instrumentIface) (v : Instrument)
    (h : nameLookup.scan T nk ik unit l = some v) :
    nameLookup.scan T nk ik unit (l ++ l2) = some v := by
  induction l with
  | nil => simp [nameLookup.scan] at h
  | cons e l ih =>
    by_cases hm : Matches T nk ik unit e
    · rw [scan_cons_of_matches T nk ik unit e l hm] at h
      rw [List.cons_append, scan_cons_of_matches T nk ik unit e (l ++ l2) hm, h]
    · rw [scan_cons_of_not_matches T nk ik unit e l hm] at h
      rw [List.cons_append, scan_cons_of_not_matches T nk ik unit e (l ++ l2) hm]
      exact ih h

theorem scan_append_of_none (T : TypeTag) (nk : number.Kind) (ik : sdkinstrument.Kind)
    (unit : String) (l l2 : List instrumentIface)
    (h : nameLookup.scan T nk ik unit l = none) :
    nameLookup.scan T nk ik unit (l ++ l2) = nameLookup.scan T nk ik unit l2 := by
  induction l with
  | nil => rfl
  | cons e l ih =>
    by_cases hm : Matches T nk ik unit e
    · rw [scan_cons_of_matches T nk ik unit e l hm] at h
      exact absurd h (by simp)
    · rw [scan_cons_of_not_matches T nk ik unit e l hm] at h
      rw [List.cons_append, scan_cons_of_not_matches T nk ik unit e (l ++ l2) hm]
      exact ih h

end metric

namespace metric

/-! ## One `nameLookup` call -/

theorem nameLookup_of_found {O : Type} (NewConfig : List O → instrument.Config) (T : TypeTag)
    (m : meter) (name : String) (opts : List O) (nk : number.Kind) (ik : sdkinstrument.Kind)
    (f : sdkinstrument.Descriptor → meter → Instrument × meter) (v : Instrument)
    (h : nameLookup.scan T nk ik (NewConfig opts).Unit (m.names name) = some v) :
    nameLookup NewConfig T m name opts nk ik f = ((v, none), m) := by
  simp only [nameLookup, h]

theorem nameLookup_of_absent {O : Type} (NewConfig : List O → instrument.Config) (T : TypeTag)
    (m : meter) (name : String) (opts : List O) (nk : number.Kind) (ik : sdkinstrument.Kind)
    (f : sdkinstrument.Descriptor → meter → Instrument × meter)
    (h : nameLookup.scan T nk ik (NewConfig opts).Unit (m.names name) = none) :
    nameLookup NewConfig T m name opts nk ik f =
      (((f (sdkinstrument.NewDescriptor name ik nk (NewConfig opts).Description
            (NewConfig opts).Unit) m).1, none),
        { (f (sdkinstrument.NewDescriptor name ik nk (NewConfig opts).Description
            (NewConfig opts).Unit) m).2 with
          names := fun n =>
            if n = name then
              (f (sdkinstrument.NewDescriptor name ik nk (NewConfig opts).Description
                (NewConfig opts).Unit) m).2.names name ++
                [{ dynType := T,
                   value := (f (sdkinstrument.NewDescriptor name ik nk
                     (NewConfig opts).Description (NewConfig opts).Unit) m).1 }]
            else
              (f (sdkinstrument.NewDescriptor name ik nk (NewConfig opts).Description
                (NewConfig opts).Unit) m).2.names n }) := by
  simp only [nameLookup, h]

/-- The index under the name after a call: unchanged when an entry was found,
the old list with the new entry at its end otherwise. -/
theorem nameLookup_names {O : Type} (NewConfig : List O → instrument.Config) (T : TypeTag)
    (m : meter) (name : String) (opts : List O) (nk : number.Kind) (ik : sdkinstrument.Kind)
    (f : sdkinstrument.Descriptor → meter → Instrument × meter) (hf : KeepsDescriptor f) :
    (nameLookup.scan T nk ik (NewConfig opts).Unit (m.names name) ≠ none ∧
      (nameLookup NewConfig T m name opts nk ik f).2 = m) ∨
    (nameLookup.scan T nk ik (NewConfig opts).Unit (m.names name) = none ∧
      (nameLookup NewConfig T m name opts nk ik f).2.names name =
        m.names name ++
          [{ dynType := T, value := (nameLookup NewConfig T m name opts nk ik f).1.1 }]) := by
  cases h : nameLookup.scan T nk ik (NewConfig opts).Unit (m.names name) with
  | some v =>
    left
    rw [nameLookup_of_found NewConfig T m name opts nk ik f v h]
    exact ⟨by simp, rfl⟩
  | none =>
    right
    rw [nameLookup_of_absent NewConfig T m name opts nk ik f h]
    refine ⟨rfl, ?_⟩
    simp only [if_true]
    rw [(hf _ m).2]

/-- The names other than the one looked up keep their entries. -/
theorem nameLookup_names_other {O : Type} (NewConfig : List O → instrument.Config)
    (T : TypeTag) (m : meter) (name : String) (opts : List O) (nk : number.Kind)
    (ik : sdkinstrument.Kind) (f : sdkinstrument.Descriptor → meter → Instrument × meter)
    (hf : KeepsDescriptor f) (n : String) (hn : n ≠ name) :
    (nameLookup NewConfig T m name opts nk ik f).2.names n = m.names n := by
  cases h : nameLookup.scan T nk ik (NewConfig opts).Unit (m.names name) with
  | some v => rw [nameLookup_of_found NewConfig T m name opts nk ik f v h]
  | none =>
    rw [nameLookup_of_absent NewConfig T m name opts nk ik f h]
    simp only [if_neg hn]
    rw [(hf _ m).2]

/-- The instrument a call returns has the kinds and the unit asked for. -/
theorem nameLookup_result_matches {O : Type} (NewConfig : List O → instrument.Config)
    (T : TypeTag) (m : meter) (name : String) (opts : List O) (nk : number.Kind)
    (ik : sdkinstrument.Kind) (f : sdkinstrument.Descriptor → meter → Instrument × meter)
    (hf : KeepsDescriptor f) :
    Matches T nk ik (NewConfig opts).Unit
      { dynType := T, value := (nameLookup NewConfig T m name opts nk ik f).1.1 } := by
  cases h : nameLookup.scan T nk ik (NewConfig opts).Unit (m.names name) with
  | some v =>
    rw [nameLookup_of_found NewConfig T m name opts nk ik f v h]
    exact (scan_eq_some T nk ik _ _ v h).2
  | none =>
    rw [nameLookup_of_absent NewConfig T m name opts nk ik f h]
    refine ⟨rfl, ?_, ?_, ?_⟩ <;>
      simp [instrumentIface.Descriptor, (hf _ m).1, sdkinstrument.NewDescriptor]

/-- The instrument a call returns is in the index under the name afterwards. -/
theorem nameLookup_result_mem {O : Type} (NewConfig : List O → instrument.Config)
    (T : TypeTag) (m : meter) (name : String) (opts : List O) (nk : number.Kind)
    (ik : sdkinstrument.Kind) (f : sdkinstrument.Descriptor → meter → Instrument × meter)
    (hf : KeepsDescriptor f) :
    ({ dynType := T, value := (nameLookup NewConfig T m name opts nk ik f).1.1 } :
        instrumentIface) ∈ (nameLookup NewConfig T m name opts nk ik f).2.names name := by
  rcases nameLookup_names NewConfig T m name opts nk ik f hf with ⟨h1, _⟩ | ⟨_, h2⟩
  · cases h : nameLookup.scan T nk ik (NewConfig opts).Unit (m.names name) with
    | none => exact absurd h h1
    | some v =>
      rw [nameLookup_of_found NewConfig T m name opts nk ik f v h]
      exact (scan_eq_some T nk ik _ _ v h).1
  · rw [h2]
    exact List.mem_append_right _ (List.mem_singleton_self _)

/-- No call returns an error. -/
theorem nameLookup_no_error {O : Type} (NewConfig : List O → instrument.Config)
    (T : TypeTag) (m : meter) (name : String) (opts : List O) (nk : number.Kind)
    (ik : sdkinstrument.Kind) (f : sdkinstrument.Descriptor → meter → Instrument × meter) :
    (nameLookup NewConfig T m name opts nk ik f).1.2 = none := by
  cases h : nameLookup.scan T nk ik (NewConfig opts).Unit (m.names name) with
  | some v => rw [nameLookup_of_found NewConfig T m name opts nk ik f v h]
  | none => rw [nameLookup_of_absent NewConfig T m name opts nk ik f h]

end metric

namespace metric

/-! ## Two `nameLookup` calls under one name -/

/-- A scan for the identity just looked up finds the instrument that the
call returned. -/
theorem scan_after_nameLookup {O : Type} (NewConfig : List O → instrument.Config)
    (T : TypeTag) (m : meter) (name : String) (opts : List O) (nk : number.Kind)
    (ik : sdkinstrument.Kind) (f : sdkinstrument.Descriptor → meter → Instrument × meter)
    (hf : KeepsDescriptor f) :
    nameLookup.scan T nk ik (NewConfig opts).Unit
        ((nameLookup NewConfig T m name opts nk ik f).2.names name) =
      some (nameLookup NewConfig T m name opts nk ik f).1.1 := by
  rcases nameLookup_names NewConfig T m name opts nk ik f hf with ⟨h1, _⟩ | ⟨h1, h2⟩
  · cases h : nameLookup.scan T nk ik (NewConfig opts).Unit (m.names name) with
    | none => exact absurd h h1
    | some v =>
      rw [nameLookup_of_found NewConfig T m name opts nk ik f v h]
      exact h
  · rw [h2, scan_append_of_none T nk ik _ _ _ h1]
    exact scan_cons_of_matches T nk ik _ _ []
      (nameLookup_result_matches NewConfig T m name opts nk ik f hf)

/-- C11: after a `nameLookup` whose constructor stores the descriptor it is
given, a second `nameLookup` with the same name, instrument kind, number kind,
unit and type parameter returns the very instrument of the first call and no
error, and leaves the meter, its by-name index included, as the first call
left it. This holds for every description and for every constructor `g`
passed to the second call, so `g` is not run. The instrument keeps its
descriptor; when the first call is the one that created it, its description
is the one of the first call. -/
theorem nameLookup_same_identity_returns_existing {O : Type}
    (NewConfig : List O → instrument.Config) (T : TypeTag) (m : meter) (name : String)
    (opts1 opts2 : List O) (nk : number.Kind) (ik : sdkinstrument.Kind)
    (f g : sdkinstrument.Descriptor → meter → Instrument × meter)
    (hf : KeepsDescriptor f) (hunit : (NewConfig opts2).Unit = (NewConfig opts1).Unit) :
    secondLookup NewConfig m name T opts1 nk ik f T opts2 nk ik g =
      (((nameLookup NewConfig T m name opts1 nk ik f).1.1, none),
        (nameLookup NewConfig T m name opts1 nk ik f).2) ∧
    (nameLookup.scan T nk ik (NewConfig opts1).Unit (m.names name) = none →
      (secondLookup NewConfig m name T opts1 nk ik f T opts2 nk ik g).1.1.descriptor.Description
        = (NewConfig opts1).Description) := by
  have hsecond : secondLookup NewConfig m name T opts1 nk ik f T opts2 nk ik g =
      (((nameLookup NewConfig T m name opts1 nk ik f).1.1, none),
        (nameLookup NewConfig T m name opts1 nk ik f).2) := by
    unfold secondLookup
    apply nameLookup_of_found
    rw [hunit]
    exact scan_after_nameLookup NewConfig T m name opts1 nk ik f hf
  refine ⟨hsecond, ?_⟩
  intro hnone
  rw [hsecond, nameLookup_of_absent NewConfig T m name opts1 nk ik f hnone]
  simp [(hf _ m).1, sdkinstrument.NewDescriptor]

/-- Instance of C11: a counter "requests" with unit "1" is looked up twice on
a new meter, with the descriptions "first" and "second". -/
theorem nameLookup_same_identity_returns_existing_witness :
    secondLookup sampleNewConfig
        sampleMeter "requests"
        0 [⟨"first", "1"⟩] 0 0 (plainConstructor 1) 0 [⟨"second", "1"⟩] 0 0
        (listingConstructor 0 2) =
      (((nameLookup sampleNewConfig 0
          sampleMeter "requests"
          [⟨"first", "1"⟩] 0 0 (plainConstructor 1)).1.1, none),
        (nameLookup sampleNewConfig 0
          sampleMeter "requests"
          [⟨"first", "1"⟩] 0 0 (plainConstructor 1)).2) ∧
    (secondLookup sampleNewConfig
        sampleMeter "requests"
        0 [⟨"first", "1"⟩] 0 0 (plainConstructor 1) 0 [⟨"second", "1"⟩] 0 0
        (listingConstructor 0 2)).1.1.descriptor.Description = "first" :=
  ⟨(nameLookup_same_identity_returns_existing sampleNewConfig 0
      sampleMeter "requests"
      [⟨"first", "1"⟩] [⟨"second", "1"⟩] 0 0 (plainConstructor 1) (listingConstructor 0 2)
      (fun _ _ => ⟨rfl, rfl⟩) rfl).1,
    (nameLookup_same_identity_returns_existing sampleNewConfig 0
      sampleMeter "requests"
      [⟨"first", "1"⟩] [⟨"second", "1"⟩] 0 0 (plainConstructor 1) (listingConstructor 0 2)
      (fun _ _ => ⟨rfl, rfl⟩) rfl).2 rfl⟩

end metric

namespace metric

/-- The index under the name only grows at its end in a call. -/
theorem nameLookup_names_prefix {O : Type} (NewConfig : List O → instrument.Config)
    (T : TypeTag) (m : meter) (name : String) (opts : List O) (nk : number.Kind)
    (ik : sdkinstrument.Kind) (f : sdkinstrument.Descriptor → meter → Instrument × meter)
    (hf : KeepsDescriptor f) :
    m.names name <+: (nameLookup NewConfig T m name opts nk ik f).2.names name := by
  rcases nameLookup_names NewConfig T m name opts nk ik f hf with ⟨_, h2⟩ | ⟨_, h2⟩
  · rw [h2]
  · rw [h2]
    exact List.prefix_append _ _

/-- C12: two `nameLookup` calls under one name that differ in instrument
kind, number kind or unit (constructors storing the descriptor they are
given) return two distinct instruments and no error; both instruments are in
the by-name index under that name afterwards; the index only grows at its
end, so an instrument created earlier stands before one created later, and
when both calls create their instrument the index is the old one followed by
the first and then the second instrument. -/
theorem nameLookup_kind_conflict_creates_second {O : Type}
    (NewConfig : List O → instrument.Config) (m : meter) (name : String)
    (T1 T2 : TypeTag) (opts1 opts2 : List O) (nk1 nk2 : number.Kind)
    (ik1 ik2 : sdkinstrument.Kind)
    (f1 f2 : sdkinstrument.Descriptor → meter → Instrument × meter)
    (hf1 : KeepsDescriptor f1) (hf2 : KeepsDescriptor f2)
    (hdiff : ik1 ≠ ik2 ∨ nk1 ≠ nk2 ∨ (NewConfig opts1).Unit ≠ (NewConfig opts2).Unit) :
    (nameLookup NewConfig T1 m name opts1 nk1 ik1 f1).1.1 ≠
      (secondLookup NewConfig m name T1 opts1 nk1 ik1 f1 T2 opts2 nk2 ik2 f2).1.1 ∧
    (nameLookup NewConfig T1 m name opts1 nk1 ik1 f1).1.2 = none ∧
    (secondLookup NewConfig m name T1 opts1 nk1 ik1 f1 T2 opts2 nk2 ik2 f2).1.2 = none ∧
    ({ dynType := T1, value := (nameLookup NewConfig T1 m name opts1 nk1 ik1 f1).1.1 } :
        instrumentIface) ∈
      (secondLookup NewConfig m name T1 opts1 nk1 ik1 f1 T2 opts2 nk2 ik2 f2).2.names name ∧
    ({ dynType := T2,
       value := (secondLookup NewConfig m name T1 opts1 nk1 ik1 f1 T2 opts2 nk2 ik2 f2).1.1 } :
        instrumentIface) ∈
      (secondLookup NewConfig m name T1 opts1 nk1 ik1 f1 T2 opts2 nk2 ik2 f2).2.names name ∧
    m.names name <+: (nameLookup NewConfig T1 m name opts1 nk1 ik1 f1).2.names name ∧
    (nameLookup NewConfig T1 m name opts1 nk1 ik1 f1).2.names name <+:
      (secondLookup NewConfig m name T1 opts1 nk1 ik1 f1 T2 opts2 nk2 ik2 f2).2.names name ∧
    (nameLookup.scan T1 nk1 ik1 (NewConfig opts1).Unit (m.names name) = none →
      nameLookup.scan T2 nk2 ik2 (NewConfig opts2).Unit (m.names name) = none →
      (secondLookup NewConfig m name T1 opts1 nk1 ik1 f1 T2 opts2 nk2 ik2 f2).2.names name =
        m.names name ++
          [{ dynType := T1,
             value := (nameLookup NewConfig T1 m name opts1 nk1 ik1 f1).1.1 },
           { dynType := T2,
             value := (secondLookup NewConfig m name T1 opts1 nk1 ik1 f1 T2 opts2 nk2 ik2
               f2).1.1 }]) := by
  have hm1 := nameLookup_result_matches NewConfig T1 m name opts1 nk1 ik1 f1 hf1
  have hm2 := nameLookup_result_matches NewConfig T2
    (nameLookup NewConfig T1 m name opts1 nk1 ik1 f1).2 name opts2 nk2 ik2 f2 hf2
  have hp2 := nameLookup_names_prefix NewConfig T2
    (nameLookup NewConfig T1 m name opts1 nk1 ik1 f1).2 name opts2 nk2 ik2 f2 hf2
  have hnot : ¬ Matches T2 nk2 ik2 (NewConfig opts2).Unit
      { dynType := T1, value := (nameLookup NewConfig T1 m name opts1 nk1 ik1 f1).1.1 } := by
    intro hc
    obtain ⟨_, a2, a3, a4⟩ := hm1
    obtain ⟨_, b2, b3, b4⟩ := hc
    rcases hdiff with hd | hd | hd
    · exact hd (a3.symm.trans b3)
    · exact hd (a2.symm.trans b2)
    · exact hd (a4.symm.trans b4)
  refine ⟨?_, nameLookup_no_error NewConfig T1 m name opts1 nk1 ik1 f1,
    nameLookup_no_error NewConfig T2 _ name opts2 nk2 ik2 f2, ?_,
    nameLookup_result_mem NewConfig T2 _ name opts2 nk2 ik2 f2 hf2,
    nameLookup_names_prefix NewConfig T1 m name opts1 nk1 ik1 f1 hf1, hp2, ?_⟩
  · intro heq
    have a2 : (nameLookup NewConfig T1 m name opts1 nk1 ik1 f1).1.1.descriptor.NumberKind
        = nk1 := hm1.2.1
    have a3 : (nameLookup NewConfig T1 m name opts1 nk1 ik1 f1).1.1.descriptor.Kind
        = ik1 := hm1.2.2.1
    have a4 : (nameLookup NewConfig T1 m name opts1 nk1 ik1 f1).1.1.descriptor.Unit
        = (NewConfig opts1).Unit := hm1.2.2.2
    have b2 : (secondLookup NewConfig m name T1 opts1 nk1 ik1 f1 T2 opts2 nk2 ik2
        f2).1.1.descriptor.NumberKind = nk2 := hm2.2.1
    have b3 : (secondLookup NewConfig m name T1 opts1 nk1 ik1 f1 T2 opts2 nk2 ik2
        f2).1.1.descriptor.Kind = ik2 := hm2.2.2.1
    have b4 : (secondLookup NewConfig m name T1 opts1 nk1 ik1 f1 T2 opts2 nk2 ik2
        f2).1.1.descriptor.Unit = (NewConfig opts2).Unit := hm2.2.2.2
    rw [heq] at a2 a3 a4
    rcases hdiff with hd | hd | hd
    · exact hd (a3.symm.trans b3)
    · exact hd (a2.symm.trans b2)
    · exact hd (a4.symm.trans b4)
  · exact hp2.subset (nameLookup_result_mem NewConfig T1 m name opts1 nk1 ik1 f1 hf1)
  · intro hn1 hn2
    rcases nameLookup_names NewConfig T1 m name opts1 nk1 ik1 f1 hf1 with ⟨h1, _⟩ | ⟨_, h1⟩
    · exact absurd hn1 h1
    · have hscan : nameLookup.scan T2 nk2 ik2 (NewConfig opts2).Unit
          ((nameLookup NewConfig T1 m name opts1 nk1 ik1 f1).2.names name) = none := by
        rw [h1, scan_append_of_none T2 nk2 ik2 _ _ _ hn2,
          scan_cons_of_not_matches T2 nk2 ik2 _ _ [] hnot]
        rfl
      rcases nameLookup_names NewConfig T2 (nameLookup NewConfig T1 m name opts1 nk1 ik1 f1).2
        name opts2 nk2 ik2 f2 hf2 with ⟨h2, _⟩ | ⟨_, h2⟩
      · exact absurd hscan h2
      · unfold secondLookup
        rw [h2, h1, List.append_assoc]
        rfl

end metric

namespace metric

/-- Instance of C12: on a new meter "requests" is looked up as a counter
(kind 0) and then as a histogram (kind 2), both with unit "1". -/
theorem nameLookup_kind_conflict_creates_second_witness :
    KeepsDescriptor (plainConstructor 1) ∧ KeepsDescriptor (plainConstructor 2) ∧
    ((0 : sdkinstrument.Kind) ≠ 2 ∨ (0 : number.Kind) ≠ 0 ∨
      (sampleNewConfig [⟨"", "1"⟩]).Unit ≠ (sampleNewConfig [⟨"", "1"⟩]).Unit) ∧
    (nameLookup sampleNewConfig 0 sampleMeter "requests" [⟨"", "1"⟩] 0 0
        (plainConstructor 1)).1.1 ≠
      (secondLookup sampleNewConfig sampleMeter "requests" 0 [⟨"", "1"⟩] 0 0
        (plainConstructor 1) 0 [⟨"", "1"⟩] 0 2 (plainConstructor 2)).1.1 ∧
    (secondLookup sampleNewConfig sampleMeter "requests" 0 [⟨"", "1"⟩] 0 0
        (plainConstructor 1) 0 [⟨"", "1"⟩] 0 2 (plainConstructor 2)).2.names "requests" =
      [{ dynType := 0,
         value := (nameLookup sampleNewConfig 0 sampleMeter "requests" [⟨"", "1"⟩] 0 0
           (plainConstructor 1)).1.1 },
       { dynType := 0,
         value := (secondLookup sampleNewConfig sampleMeter "requests" 0 [⟨"", "1"⟩] 0 0
           (plainConstructor 1) 0 [⟨"", "1"⟩] 0 2 (plainConstructor 2)).1.1 }] :=
  ⟨fun _ _ => ⟨rfl, rfl⟩, fun _ _ => ⟨rfl, rfl⟩, Or.inl (by decide),
    (nameLookup_kind_conflict_creates_second sampleNewConfig sampleMeter "requests" 0 0
      [⟨"", "1"⟩] [⟨"", "1"⟩] 0 0 0 2 (plainConstructor 1) (plainConstructor 2)
      (fun _ _ => ⟨rfl, rfl⟩) (fun _ _ => ⟨rfl, rfl⟩) (Or.inl (by decide))).1,
    (nameLookup_kind_conflict_creates_second sampleNewConfig sampleMeter "requests" 0 0
      [⟨"", "1"⟩] [⟨"", "1"⟩] 0 0 0 2 (plainConstructor 1) (plainConstructor 2)
      (fun _ _ => ⟨rfl, rfl⟩) (fun _ _ => ⟨rfl, rfl⟩) (Or.inl (by decide))).2.2.2.2.2.2.2
      rfl rfl⟩

/-! ## Where a new instrument is stored -/

/-- C13, as stated, fails: after a `nameLookup` that creates the instrument
(with a constructor that only builds it) the instrument is the one entry of
the by-name index, and the instrument list of the meter, the list `Produce`
walks, is still empty. -/
theorem nameLookup_leaves_instrument_list_empty :
    (nameLookup sampleNewConfig 0 sampleMeter "requests" [] 0 0
        (plainConstructor 1)).2.names "requests" =
      [{ dynType := 0,
         value := (nameLookup sampleNewConfig 0 sampleMeter "requests" [] 0 0
           (plainConstructor 1)).1.1 }] ∧
    (nameLookup sampleNewConfig 0 sampleMeter "requests" [] 0 0
        (plainConstructor 1)).2.instruments = [] ∧
    ({ dynType := 0,
       value := (nameLookup sampleNewConfig 0 sampleMeter "requests" [] 0 0
         (plainConstructor 1)).1.1 } : instrumentIface) ∉
      (nameLookup sampleNewConfig 0 sampleMeter "requests" [] 0 0
        (plainConstructor 1)).2.instruments := by
  decide

/-- C13, amended: when `nameLookup` finds no matching instrument under the
name, it returns the instrument the constructor built and appends it to the
by-name index under that name, at the end. That is all it stores: the
entries of other names, the instrument list and the callback list of the
meter are as the constructor left them. -/
theorem nameLookup_appends_to_index_only {O : Type} (NewConfig : List O → instrument.Config)
    (T : TypeTag) (m : meter) (name : String) (opts : List O) (nk : number.Kind)
    (ik : sdkinstrument.Kind) (f : sdkinstrument.Descriptor → meter → Instrument × meter)
    (habsent : nameLookup.scan T nk ik (NewConfig opts).Unit (m.names name) = none) :
    (nameLookup NewConfig T m name opts nk ik f).1.1 =
      (f (sdkinstrument.NewDescriptor name ik nk (NewConfig opts).Description
        (NewConfig opts).Unit) m).1 ∧
    (nameLookup NewConfig T m name opts nk ik f).2.names name =
      (f (sdkinstrument.NewDescriptor name ik nk (NewConfig opts).Description
        (NewConfig opts).Unit) m).2.names name ++
        [{ dynType := T, value := (nameLookup NewConfig T m name opts nk ik f).1.1 }] ∧
    (∀ n : String, n ≠ name →
      (nameLookup NewConfig T m name opts nk ik f).2.names n =
        (f (sdkinstrument.NewDescriptor name ik nk (NewConfig opts).Description
          (NewConfig opts).Unit) m).2.names n) ∧
    (nameLookup NewConfig T m name opts nk ik f).2.instruments =
      (f (sdkinstrument.NewDescriptor name ik nk (NewConfig opts).Description
        (NewConfig opts).Unit) m).2.instruments ∧
    (nameLookup NewConfig T m name opts nk ik f).2.callbacks =
      (f (sdkinstrument.NewDescriptor name ik nk (NewConfig opts).Description
        (NewConfig opts).Unit) m).2.callbacks := by
  rw [nameLookup_of_absent NewConfig T m name opts nk ik f habsent]
  refine ⟨rfl, ?_, ?_, rfl, rfl⟩
  · simp only [if_true]
  · intro n hn
    simp only [if_neg hn]

/-- Instance of C13 amended: with a constructor that only builds the
instrument the instrument list stays as it was; with a constructor that
appends to the instrument list itself the instrument is in that list. -/
theorem nameLookup_appends_to_index_only_witness :
    nameLookup.scan 0 0 0 (sampleNewConfig []).Unit (sampleMeter.names "requests") = none ∧
    (nameLookup sampleNewConfig 0 sampleMeter "requests" [] 0 0
        (plainConstructor 1)).2.instruments = sampleMeter.instruments ∧
    (nameLookup sampleNewConfig 0 sampleMeter "requests" [] 0 0
        (listingConstructor 0 1)).2.instruments =
      [{ dynType := 0,
         value := { addr := 1,
                    descriptor := sdkinstrument.NewDescriptor "requests" 0 0 "" "" } }] :=
  ⟨rfl,
    (nameLookup_appends_to_index_only sampleNewConfig 0 sampleMeter "requests" [] 0 0
      (plainConstructor 1) rfl).2.2.2.1,
    (nameLookup_appends_to_index_only sampleNewConfig 0 sampleMeter "requests" [] 0 0
      (listingConstructor 0 1) rfl).2.2.2.1⟩

end metric

namespace metric

/-! ## Scopes: `Meter` -/

theorem meter_of_known {MO : Type} (NewMeterConfig : List MO → MeterConfig) (mem : MeterHeap)
    (p : provider) (name : String) (opts : List MO) (q : MeterPtr)
    (h : p.meters (libraryOf NewMeterConfig (name, opts)) = some q) :
    p.Meter NewMeterConfig mem name opts = (q, p, mem) := by
  unfold libraryOf at h
  simp only [provider.Meter, h]

theorem meter_of_unknown {MO : Type} (NewMeterConfig : List MO → MeterConfig) (mem : MeterHeap)
    (p : provider) (name : String) (opts : List MO)
    (h : p.meters (libraryOf NewMeterConfig (name, opts)) = none) :
    p.Meter NewMeterConfig mem name opts =
      (mem.length,
        { p with
          ordered := p.ordered ++ [mem.length]
          meters := fun l =>
            if l = libraryOf NewMeterConfig (name, opts) then some mem.length
            else p.meters l },
        mem ++
          [{ library := libraryOf NewMeterConfig (name, opts)
             names := fun _ => []
             views := viewstate.New (libraryOf NewMeterConfig (name, opts)) p.cfg.views
               p.cfg.readers
             instruments := []
             callbacks := [] }]) := by
  unfold libraryOf at h
  simp only [provider.Meter, h, libraryOf]

/-- After a `Meter` call the scope map knows the library asked for and maps
it to the meter returned. -/
theorem meter_then_known {MO : Type} (NewMeterConfig : List MO → MeterConfig)
    (mem : MeterHeap) (p : provider) (name : String) (opts : List MO) :
    (p.Meter NewMeterConfig mem name opts).2.1.meters (libraryOf NewMeterConfig (name, opts)) =
      some (p.Meter NewMeterConfig mem name opts).1 := by
  cases h : p.meters (libraryOf NewMeterConfig (name, opts)) with
  | some q =>
    rw [meter_of_known NewMeterConfig mem p name opts q h]
    exact h
  | none =>
    rw [meter_of_unknown NewMeterConfig mem p name opts h]
    simp

/-- C14: a second `Meter` call with the same name, version and schema URL
returns the meter of the first call and leaves the provider (ordered list and
scope map) and the allocated meters unchanged. A `Meter` call for a library
the scope map does not know returns a newly allocated meter, distinct from
every meter of the ordered list, carrying that library, and appends it at the
end of the ordered list, whose earlier entries keep their places; the scope
map changes at that library only and the meters allocated before are
untouched. -/
theorem meter_cached_or_appended {MO : Type} (NewMeterConfig : List MO → MeterConfig)
    (mem : MeterHeap) (p : provider) (name : String) (opts opts2 : List MO)
    (hversion : (NewMeterConfig opts2).InstrumentationVersion =
      (NewMeterConfig opts).InstrumentationVersion)
    (hschema : (NewMeterConfig opts2).SchemaURL = (NewMeterConfig opts).SchemaURL) :
    (p.Meter NewMeterConfig mem name opts).2.1.Meter NewMeterConfig
        (p.Meter NewMeterConfig mem name opts).2.2 name opts2 =
      p.Meter NewMeterConfig mem name opts ∧
    (p.meters (libraryOf NewMeterConfig (name, opts)) = none →
      (∀ q ∈ p.ordered, q < mem.length) →
      (p.Meter NewMeterConfig mem name opts).1 = mem.length ∧
      (p.Meter NewMeterConfig mem name opts).1 ∉ p.ordered ∧
      (p.Meter NewMeterConfig mem name opts).2.1.ordered =
        p.ordered ++ [(p.Meter NewMeterConfig mem name opts).1] ∧
      ((p.Meter NewMeterConfig mem name opts).2.2[(p.Meter NewMeterConfig mem name opts).1]?).map
          meter.library = some (libraryOf NewMeterConfig (name, opts)) ∧
      (∀ q : MeterPtr, q < mem.length →
        (p.Meter NewMeterConfig mem name opts).2.2[q]? = mem[q]?) ∧
      (∀ l : instrumentation.Library, l ≠ libraryOf NewMeterConfig (name, opts) →
        (p.Meter NewMeterConfig mem name opts).2.1.meters l = p.meters l)) := by
  have hlib : libraryOf NewMeterConfig (name, opts2) = libraryOf NewMeterConfig (name, opts) := by
    simp only [libraryOf, hversion, hschema]
  constructor
  · have hk := meter_then_known NewMeterConfig mem p name opts
    rw [← hlib] at hk
    rw [meter_of_known NewMeterConfig _ _ name opts2 _ hk]
  · intro hnone hvalid
    rw [meter_of_unknown NewMeterConfig mem p name opts hnone]
    refine ⟨rfl, ?_, rfl, ?_, ?_, ?_⟩
    · intro hmem
      exact Nat.lt_irrefl _ (hvalid _ hmem)
    · simp
    · intro q hq
      exact List.getElem?_append_left hq
    · intro l hl
      simp [hl]

/-- Instance of C14: on a provider that knows the scope "a", the scope "b"
of version "v1" is asked for twice. -/
theorem meter_cached_or_appended_witness :
    ((meterCalls sampleNewMeterConfig ((New ⟨0⟩ 100 []).1, []) [("a", [])]).1.Meter
        sampleNewMeterConfig
        (meterCalls sampleNewMeterConfig ((New ⟨0⟩ 100 []).1, []) [("a", [])]).2 "b"
        [⟨"v1", ""⟩]).2.1.Meter sampleNewMeterConfig
        ((meterCalls sampleNewMeterConfig ((New ⟨0⟩ 100 []).1, []) [("a", [])]).1.Meter
          sampleNewMeterConfig
          (meterCalls sampleNewMeterConfig ((New ⟨0⟩ 100 []).1, []) [("a", [])]).2 "b"
          [⟨"v1", ""⟩]).2.2 "b" [⟨"v1", ""⟩, ⟨"v2", "s"⟩] =
      (meterCalls sampleNewMeterConfig ((New ⟨0⟩ 100 []).1, []) [("a", [])]).1.Meter
        sampleNewMeterConfig
        (meterCalls sampleNewMeterConfig ((New ⟨0⟩ 100 []).1, []) [("a", [])]).2 "b"
        [⟨"v1", ""⟩] ∧
    ((meterCalls sampleNewMeterConfig ((New ⟨0⟩ 100 []).1, []) [("a", [])]).1.Meter
        sampleNewMeterConfig
        (meterCalls sampleNewMeterConfig ((New ⟨0⟩ 100 []).1, []) [("a", [])]).2 "b"
        [⟨"v1", ""⟩]).2.1.ordered = [0, 1] :=
  ⟨(meter_cached_or_appended sampleNewMeterConfig
      (meterCalls sampleNewMeterConfig ((New ⟨0⟩ 100 []).1, []) [("a", [])]).2
      (meterCalls sampleNewMeterConfig ((New ⟨0⟩ 100 []).1, []) [("a", [])]).1 "b"
      [⟨"v1", ""⟩] [⟨"v1", ""⟩, ⟨"v2", "s"⟩] rfl rfl).1,
    ((meter_cached_or_appended sampleNewMeterConfig
      (meterCalls sampleNewMeterConfig ((New ⟨0⟩ 100 []).1, []) [("a", [])]).2
      (meterCalls sampleNewMeterConfig ((New ⟨0⟩ 100 []).1, []) [("a", [])]).1 "b"
      [⟨"v1", ""⟩] [⟨"v1", ""⟩, ⟨"v2", "s"⟩] rfl rfl).2 (by decide) (by decide)).2.2.1⟩

end metric

namespace metric

/-! ## Callbacks: `RegisterCallback` -/

/-- C18: `RegisterCallback` returns exactly the error of the callback
validation `NewCallback`. When the validation fails the meter, its callback
list included, is unchanged. When it succeeds the result is `nil` and the
callback list is the previous list with the new callback appended at the end,
the other fields of the meter being unchanged; in both cases the previous
callback list is a prefix of the new one. -/
theorem registerCallback_appends_or_fails {I F : Type}
    (NewCallback : List I → F → asyncstate.Callback × Option String)
    (m : meter) (insts : List I) (function : F) :
    (m.RegisterCallback NewCallback insts function).1 = (NewCallback insts function).2 ∧
    ((NewCallback insts function).2 ≠ none →
      (m.RegisterCallback NewCallback insts function).2 = m) ∧
    ((NewCallback insts function).2 = none →
      (m.RegisterCallback NewCallback insts function).1 = none ∧
      (m.RegisterCallback NewCallback insts function).2.callbacks =
        m.callbacks ++ [(NewCallback insts function).1] ∧
      (m.RegisterCallback NewCallback insts function).2.names = m.names ∧
      (m.RegisterCallback NewCallback insts function).2.instruments = m.instruments ∧
      (m.RegisterCallback NewCallback insts function).2.library = m.library ∧
      (m.RegisterCallback NewCallback insts function).2.views = m.views) ∧
    m.callbacks <+: (m.RegisterCallback NewCallback insts function).2.callbacks := by
  cases h : (NewCallback insts function).2 with
  | none =>
    have hR : m.RegisterCallback NewCallback insts function =
        (none, { m with callbacks := m.callbacks ++ [(NewCallback insts function).1] }) := by
      simp only [meter.RegisterCallback, h]
    rw [hR]
    exact ⟨rfl, fun hc => absurd rfl hc, fun _ => ⟨rfl, rfl, rfl, rfl, rfl, rfl⟩,
      List.prefix_append _ _⟩
  | some e =>
    have hR : m.RegisterCallback NewCallback insts function = (some e, m) := by
      simp only [meter.RegisterCallback, h]
    rw [hR]
    exact ⟨rfl, fun _ => rfl, fun hc => absurd hc (by simp), List.prefix_refl _⟩

/-- Instance of C18: a registration with an empty instrument set is refused
and one with an instrument is appended after the existing callback. -/
theorem registerCallback_appends_or_fails_witness :
    (sampleNewCallback [] 7).2 ≠ none ∧
    ((sampleMeter.RegisterCallback sampleNewCallback [1] 5).2.RegisterCallback
        sampleNewCallback [] 7).2 =
      (sampleMeter.RegisterCallback sampleNewCallback [1] 5).2 ∧
    (sampleNewCallback [3] 7).2 = none ∧
    ((sampleMeter.RegisterCallback sampleNewCallback [1] 5).2.RegisterCallback
        sampleNewCallback [3] 7).2.callbacks = [⟨5⟩, ⟨7⟩] :=
  ⟨by decide,
    (registerCallback_appends_or_fails sampleNewCallback
      (sampleMeter.RegisterCallback sampleNewCallback [1] 5).2 [] 7).2.1 (by decide),
    by decide,
    ((registerCallback_appends_or_fails sampleNewCallback
      (sampleMeter.RegisterCallback sampleNewCallback [1] 5).2 [3] 7).2.2.1 (by decide)).2.1⟩

/-! ## Options: `New` -/

theorem foldl_options (calls : List OptionCall) (cfg : Config) :
    ((calls.map OptionCall.toOption).foldl (fun c opt => opt c) cfg).res =
        expectedResource cfg.res calls ∧
    ((calls.map OptionCall.toOption).foldl (fun c opt => opt c) cfg).readers =
        cfg.readers ++ expectedReaders calls ∧
    ((calls.map OptionCall.toOption).foldl (fun c opt => opt c) cfg).views =
        cfg.views ++ expectedViews calls := by
  induction calls generalizing cfg with
  | nil => simp [expectedResource, expectedReaders, expectedViews]
  | cons c cs ih =>
    simp only [List.map_cons, List.foldl_cons]
    obtain ⟨h1, h2, h3⟩ := ih (c.toOption cfg)
    rw [h1, h2, h3]
    cases c with
    | withResource res =>
      simp [OptionCall.toOption, WithResource, expectedResource, expectedReaders,
        expectedViews, List.getLast?_cons]
    | withReader r =>
      simp [OptionCall.toOption, WithReader, expectedResource, expectedReaders,
        expectedViews]
    | withViews vs =>
      simp [OptionCall.toOption, WithViews, expectedResource, expectedReaders,
        expectedViews]

/-- C19: `New` applies the options in the order given to the initial
configuration. The resource of the provider is the argument of the last
`WithResource` (the default resource when there is none), the readers are the
`WithReader` arguments in order, the views are the concatenation of the
`WithViews` argument lists in order, and one producer is registered per
reader, in order. Each option changes its own field only. -/
theorem new_applies_options_in_order (defaultRes : resource.Resource) (now : time.Time)
    (calls : List OptionCall) :
    (New defaultRes now (calls.map OptionCall.toOption)).1.cfg.res =
      expectedResource defaultRes calls ∧
    (New defaultRes now (calls.map OptionCall.toOption)).1.cfg.readers =
      expectedReaders calls ∧
    (New defaultRes now (calls.map OptionCall.toOption)).1.cfg.views = expectedViews calls ∧
    (New defaultRes now (calls.map OptionCall.toOption)).2.map Prod.fst =
      expectedReaders calls ∧
    (∀ (cfg : Config) (res : resource.Resource),
      (WithResource res cfg).res = res ∧ (WithResource res cfg).readers = cfg.readers ∧
        (WithResource res cfg).views = cfg.views) ∧
    (∀ (cfg : Config) (r : reader.Reader),
      (WithReader r cfg).readers = cfg.readers ++ [r] ∧ (WithReader r cfg).res = cfg.res ∧
        (WithReader r cfg).views = cfg.views) ∧
    (∀ (cfg : Config) (vs : List views.View),
      (WithViews vs cfg).views = cfg.views ++ vs ∧ (WithViews vs cfg).res = cfg.res ∧
        (WithViews vs cfg).readers = cfg.readers) := by
  obtain ⟨h1, h2, h3⟩ := foldl_options calls { res := defaultRes, readers := [], views := [] }
  simp only [List.nil_append] at h2 h3
  refine ⟨h1, h2, h3, ?_, fun _ _ => ⟨rfl, rfl, rfl⟩, fun _ _ => ⟨rfl, rfl, rfl⟩,
    fun _ _ => ⟨rfl, rfl, rfl⟩⟩
  simp only [New, List.map_map]
  rw [h2]
  simp [Function.comp_def]

end metric

namespace metric

/-! ## The collection cycle: `Produce` -/

theorem produceScopes_of_valid {σ Out : Type} (env : Collaborators σ Out)
    (pp : providerProducer) (sequence : reader.Sequence) (mem : MeterHeap)
    (ptrs : List MeterPtr) (s : σ) (hvalid : ∀ q ∈ ptrs, q < mem.length) :
    ∃ t, pp.produceScopes env sequence mem ptrs s = some t ∧
      t.1.length = ptrs.length ∧
      t.1.map (fun sc => some sc.Library) = librariesAt mem ptrs := by
  induction ptrs generalizing s with
  | nil => exact ⟨([], s), rfl, rfl, rfl⟩
  | cons q rest ih =>
    have hq : q < mem.length := hvalid q (List.mem_cons_self q rest)
    have hget : mem[q]? = some mem[q] := List.getElem?_eq_getElem hq
    obtain ⟨t, ht, hlen, hlib⟩ :=
      ih (pp.produceMeter env sequence mem[q] s).2
        (fun x hx => hvalid x (List.mem_cons_of_mem q hx))
    refine ⟨((pp.produceMeter env sequence mem[q] s).1 :: t.1, t.2), ?_, ?_, ?_⟩
    · simp only [providerProducer.produceScopes, hget, ht]
    · simp [hlen]
    · simp only [List.map_cons, librariesAt, hget, Option.map_some']
      rw [hlib]
      rfl

/-- With every pointer of the ordered list allocated, `Produce` returns: the
snapshot has the resource of the configuration and one scope per meter of the
ordered list, in order, and the producer remembers the clock reading. -/
theorem produce_of_valid {σ Out : Type} (env : Collaborators σ Out) (now : time.Time)
    (mem : MeterHeap) (p : provider) (pp : providerProducer) (s : σ)
    (hvalid : ∀ q ∈ p.ordered, q < mem.length) :
    ∃ r, pp.Produce env now mem p s = some r ∧
      r.1.Resource = p.cfg.res ∧
      r.1.Scopes.length = p.ordered.length ∧
      r.1.Scopes.map (fun sc => some sc.Library) = librariesAt mem p.ordered ∧
      r.2.1.lastCollect = now ∧ r.2.1.reader = pp.reader := by
  obtain ⟨t, ht, hlen, hlib⟩ :=
    produceScopes_of_valid env pp (pp.sequence p now) mem p.ordered s hvalid
  refine ⟨({ Resource := p.cfg.res, Scopes := t.1 },
    { pp with lastCollect := (pp.sequence p now).Now }, t.2), ?_, rfl, hlen, hlib, rfl, rfl⟩
  simp only [providerProducer.Produce, provider.getOrdered, ht]

theorem meterCalls_append {MO : Type} (NewMeterConfig : List MO → MeterConfig)
    (st : provider × MeterHeap) (calls : List (String × List MO)) (c : String × List MO) :
    meterCalls NewMeterConfig st (calls ++ [c]) =
      (((meterCalls NewMeterConfig st calls).1.Meter NewMeterConfig
          (meterCalls NewMeterConfig st calls).2 c.1 c.2).2.1,
        ((meterCalls NewMeterConfig st calls).1.Meter NewMeterConfig
          (meterCalls NewMeterConfig st calls).2 c.1 c.2).2.2) := by
  simp only [meterCalls, List.foldl_append, List.foldl_cons, List.foldl_nil]

/-- A `Meter` call changes neither the start time nor the configuration of
the provider and keeps every pointer of the ordered list allocated. -/
theorem meter_preserves {MO : Type} (NewMeterConfig : List MO → MeterConfig) (mem : MeterHeap)
    (p : provider) (name : String) (opts : List MO)
    (hvalid : ∀ q ∈ p.ordered, q < mem.length) :
    (p.Meter NewMeterConfig mem name opts).2.1.startTime = p.startTime ∧
    (p.Meter NewMeterConfig mem name opts).2.1.cfg = p.cfg ∧
    (∀ q ∈ (p.Meter NewMeterConfig mem name opts).2.1.ordered,
      q < (p.Meter NewMeterConfig mem name opts).2.2.length) := by
  cases h : p.meters (libraryOf NewMeterConfig (name, opts)) with
  | some q =>
    rw [meter_of_known NewMeterConfig mem p name opts q h]
    exact ⟨rfl, rfl, hvalid⟩
  | none =>
    rw [meter_of_unknown NewMeterConfig mem p name opts h]
    refine ⟨rfl, rfl, ?_⟩
    intro q hq
    simp only [List.mem_append, List.mem_singleton] at hq
    simp only [List.length_append, List.length_singleton]
    rcases hq with hq | hq
    · exact Nat.lt_succ_of_lt (hvalid q hq)
    · rw [hq]
      exact Nat.lt_succ_self _

theorem meterCalls_preserves {MO : Type} (NewMeterConfig : List MO → MeterConfig)
    (calls : List (String × List MO)) (st : provider × MeterHeap)
    (hvalid : ∀ q ∈ st.1.ordered, q < st.2.length) :
    (meterCalls NewMeterConfig st calls).1.startTime = st.1.startTime ∧
    (meterCalls NewMeterConfig st calls).1.cfg = st.1.cfg ∧
    (∀ q ∈ (meterCalls NewMeterConfig st calls).1.ordered,
      q < (meterCalls NewMeterConfig st calls).2.length) := by
  induction calls using List.reverseRecOn with
  | nil => exact ⟨rfl, rfl, hvalid⟩
  | append_singleton calls c ih =>
    obtain ⟨h1, h2, h3⟩ := ih
    rw [meterCalls_append]
    obtain ⟨g1, g2, g3⟩ := meter_preserves NewMeterConfig
      (meterCalls NewMeterConfig st calls).2 (meterCalls NewMeterConfig st calls).1 c.1 c.2 h3
    exact ⟨g1.trans h1, g2.trans h2, g3⟩

end metric

namespace metric

/-! ## What the instruments see of a cycle -/

theorem foldl_run_recording {σ Out : Type} (env : Collaborators σ Out) (r : reader.Reader)
    (cbs : List asyncstate.Callback) (s : σ) (log : List reader.Sequence) :
    cbs.foldl (fun acc cb => env.recording.Run cb r acc) (s, log) =
      (cbs.foldl (fun acc cb => env.Run cb r acc) s, log) := by
  induction cbs generalizing s with
  | nil => rfl
  | cons cb cbs ih =>
    simp only [List.foldl_cons]
    exact ih (env.Run cb r s)

theorem foldl_collect_recording {σ Out : Type} (env : Collaborators σ Out) (r : reader.Reader)
    (sequence : reader.Sequence) (insts : List instrumentIface) (out : List Out) (s : σ)
    (log : List reader.Sequence) :
    insts.foldl (fun acc inst => env.recording.Collect inst r sequence acc.1 acc.2)
        (out, (s, log)) =
      ((insts.foldl (fun acc inst => env.Collect inst r sequence acc.1 acc.2) (out, s)).1,
        ((insts.foldl (fun acc inst => env.Collect inst r sequence acc.1 acc.2) (out, s)).2,
          log ++ List.replicate insts.length sequence)) := by
  induction insts generalizing out s log with
  | nil => simp
  | cons inst insts ih =>
    simp only [List.foldl_cons, List.length_cons, List.replicate_succ]
    have hstep : env.recording.Collect inst r sequence out (s, log) =
        ((env.Collect inst r sequence out s).1,
          ((env.Collect inst r sequence out s).2, log ++ [sequence])) := rfl
    rw [hstep, ih, List.append_assoc, List.singleton_append]

theorem produceMeter_recording {σ Out : Type} (env : Collaborators σ Out)
    (pp : providerProducer) (sequence : reader.Sequence) (m : meter) (s : σ)
    (log : List reader.Sequence) :
    pp.produceMeter env.recording sequence m (s, log) =
      ((pp.produceMeter env sequence m s).1,
        ((pp.produceMeter env sequence m s).2,
          log ++ List.replicate m.instruments.length sequence)) := by
  simp only [providerProducer.produceMeter, foldl_run_recording, foldl_collect_recording]

theorem produceScopes_recording {σ Out : Type} (env : Collaborators σ Out)
    (pp : providerProducer) (sequence : reader.Sequence) (mem : MeterHeap)
    (ptrs : List MeterPtr) (s : σ) (log : List reader.Sequence) :
    pp.produceScopes env.recording sequence mem ptrs (s, log) =
      (pp.produceScopes env sequence mem ptrs s).map
        (fun t => (t.1, (t.2, log ++ List.replicate (instrumentCount mem ptrs) sequence))) := by
  induction ptrs generalizing s log with
  | nil => simp [providerProducer.produceScopes, instrumentCount]
  | cons q rest ih =>
    cases hq : mem[q]? with
    | none => simp [providerProducer.produceScopes, hq]
    | some m =>
      simp only [providerProducer.produceScopes, hq, produceMeter_recording, ih]
      cases hrest : pp.produceScopes env sequence mem rest (pp.produceMeter env sequence m s).2 with
      | none => simp
      | some t =>
        simp only [Option.map_some', instrumentCount, List.map_cons, List.sum_cons, hq,
          List.replicate_add, List.append_assoc]

/-- A cycle run with the recording collaborators is the cycle run with the
collaborators themselves, and its log gains, for every instrument of the
meters of the ordered list, the sequence built from the start time of the
provider, the `lastCollect` of the producer and the clock reading. -/
theorem produce_recording {σ Out : Type} (env : Collaborators σ Out) (now : time.Time)
    (mem : MeterHeap) (p : provider) (pp : providerProducer) (s : σ)
    (log : List reader.Sequence) :
    pp.Produce env.recording now mem p (s, log) =
      (pp.Produce env now mem p s).map
        (fun r => (r.1, r.2.1,
          (r.2.2, log ++ List.replicate (instrumentCount mem p.ordered)
            { Start := p.startTime, Last := pp.lastCollect, Now := now }))) := by
  simp only [providerProducer.Produce, provider.getOrdered, produceScopes_recording,
    providerProducer.sequence]
  cases pp.produceScopes env { Start := p.startTime, Last := pp.lastCollect, Now := now } mem
      p.ordered s with
  | none => rfl
  | some t => rfl

/-- With every pointer of the ordered list allocated, the recorded cycle
returns: its log is the sequence of the cycle, once per instrument, and the
rest of the result is the result of the cycle itself. -/
theorem produce_recording_of_valid {σ Out : Type} (env : Collaborators σ Out)
    (now : time.Time) (mem : MeterHeap) (p : provider) (pp : providerProducer) (s : σ)
    (hvalid : ∀ q ∈ p.ordered, q < mem.length) :
    ∃ r, pp.Produce env.recording now mem p (s, []) = some r ∧
      pp.Produce env now mem p s = some (r.1, r.2.1, r.2.2.1) ∧
      r.2.2.2 = List.replicate (instrumentCount mem p.ordered)
        { Start := p.startTime, Last := pp.lastCollect, Now := now } ∧
      r.2.1.lastCollect = now := by
  obtain ⟨r, hr, _, _, _, hlast, _⟩ := produce_of_valid env now mem p pp s hvalid
  refine ⟨(r.1, r.2.1, (r.2.2, List.replicate (instrumentCount mem p.ordered)
    { Start := p.startTime, Last := pp.lastCollect, Now := now })), ?_, hr, rfl, hlast⟩
  rw [produce_recording, hr]
  simp

end metric

namespace metric

/-! ## The time window of a cycle -/

/-- C15, as stated, fails in the first cycle: a provider constructed at
clock reading 100 registers a producer whose `lastCollect` is the zero time,
so in the cycle at reading 150 `Produce` hands the sequence (100, 0, 150) to
the instrument of its scope, in which `Start <= Last` does not hold although
the clock never went back. -/
theorem first_cycle_last_before_start :
    (New ⟨0⟩ 100 [WithReader ⟨1⟩]).2 =
      [(⟨1⟩, (New ⟨0⟩ 100 [WithReader ⟨1⟩]).1.producerFor ⟨1⟩)] ∧
    sampleProvider.producerFor ⟨1⟩ = (New ⟨0⟩ 100 [WithReader ⟨1⟩]).1.producerFor ⟨1⟩ ∧
    sampleProvider.startTime = 100 ∧ sampleProvider.startTime ≤ 150 ∧
    ((sampleProvider.producerFor ⟨1⟩).Produce sampleCollaborators.recording 150
        [sampleInstrumentedMeter] sampleProvider (0, [])).map (fun r => r.2.2.2) =
      some [⟨100, 0, 150⟩] ∧
    ¬ ((⟨100, 0, 150⟩ : reader.Sequence).Start ≤ (⟨100, 0, 150⟩ : reader.Sequence).Last) := by
  decide

/-- C15, amended: with clock readings that do not go back after the provider
start, every cycle of a producer that follows another cycle of it (with any
`Meter` calls and any changes of the meters in between) returns, and every
sequence `Produce` hands to an instrument in it, one per instrument, has
`Start <= Last <= Now`. In the first cycle of a producer made by
`producerFor` every sequence handed to an instrument has the zero time as
`Last`, so there `Last <= Now` and `Start <= Now` hold. The sequence of the
later cycle is (provider start, previous clock reading, clock reading), that
of the first cycle (provider start, zero time, clock reading). -/
theorem sequence_ordered_after_first_cycle {σ Out MO : Type} (env : Collaborators σ Out)
    (NewMeterConfig : List MO → MeterConfig) (now1 now2 : time.Time) (mem mem2 : MeterHeap)
    (p : provider) (pp : providerProducer) (s s2 : σ) (calls : List (String × List MO))
    (rd : reader.Reader)
    (hvalid : ∀ q ∈ p.ordered, q < mem.length)
    (hvalid2 : ∀ q ∈ (meterCalls NewMeterConfig (p, mem) calls).1.ordered, q < mem2.length)
    (hstart : p.startTime ≤ now1) (hclock : now1 ≤ now2) :
    ∃ r1 r2,
      pp.Produce env.recording now1 mem p (s, []) = some r1 ∧
      r1.2.1.Produce env.recording now2 mem2 (meterCalls NewMeterConfig (p, mem) calls).1
        (s2, []) = some r2 ∧
      r1.2.1.Produce env now2 mem2 (meterCalls NewMeterConfig (p, mem) calls).1 s2 =
        some (r2.1, r2.2.1, r2.2.2.1) ∧
      r2.2.2.2 =
        List.replicate
          (instrumentCount mem2 (meterCalls NewMeterConfig (p, mem) calls).1.ordered)
          { Start := p.startTime, Last := now1, Now := now2 } ∧
      (∀ sq ∈ r2.2.2.2, sq.Start ≤ sq.Last ∧ sq.Last ≤ sq.Now) ∧
      ∃ r0, (p.producerFor rd).Produce env.recording now1 mem p (s, []) = some r0 ∧
        r0.2.2.2 = List.replicate (instrumentCount mem p.ordered)
          { Start := p.startTime, Last := 0, Now := now1 } ∧
        ∀ sq ∈ r0.2.2.2, sq.Last = 0 ∧ sq.Last ≤ sq.Now ∧ sq.Start ≤ sq.Now := by
  obtain ⟨r1, h1, _, _, hlast1⟩ := produce_recording_of_valid env now1 mem p pp s hvalid
  obtain ⟨r2, h2, h2plain, hlog2, _⟩ := produce_recording_of_valid env now2 mem2
    (meterCalls NewMeterConfig (p, mem) calls).1 r1.2.1 s2 hvalid2
  obtain ⟨r0, h0, _, hlog0, _⟩ :=
    produce_recording_of_valid env now1 mem p (p.producerFor rd) s hvalid
  obtain ⟨hst, _, _⟩ := meterCalls_preserves NewMeterConfig calls (p, mem) hvalid
  have hst2 : (meterCalls NewMeterConfig (p, mem) calls).1.startTime = p.startTime := hst
  rw [hst2, hlast1] at hlog2
  refine ⟨r1, r2, h1, h2, h2plain, hlog2, ?_, r0, h0, hlog0, ?_⟩
  · intro sq hsq
    rw [hlog2] at hsq
    rw [List.eq_of_mem_replicate hsq]
    exact ⟨hstart, hclock⟩
  · intro sq hsq
    rw [hlog0] at hsq
    rw [List.eq_of_mem_replicate hsq]
    exact ⟨rfl, Nat.zero_le _, hstart⟩

/-- Instance of C15 amended: provider started at 100, cycles at 150 and 170
over a scope with one instrument, the scope "b" created in between. The
second cycle hands the sequence (100, 150, 170) to the instrument. -/
theorem sequence_ordered_after_first_cycle_witness :
    (∀ q ∈ sampleProvider.ordered, q < [sampleInstrumentedMeter].length) ∧
    (∀ q ∈ (meterCalls sampleNewMeterConfig (sampleProvider, [sampleInstrumentedMeter])
        [("b", [])]).1.ordered,
      q < (meterCalls sampleNewMeterConfig (sampleProvider, [sampleInstrumentedMeter])
        [("b", [])]).2.length) ∧
    sampleProvider.startTime ≤ 150 ∧ (150 : time.Time) ≤ 170 ∧
    ∃ r1 r2,
      (sampleProvider.producerFor ⟨1⟩).Produce sampleCollaborators.recording 150
        [sampleInstrumentedMeter] sampleProvider (0, []) = some r1 ∧
      r1.2.1.Produce sampleCollaborators.recording 170
        (meterCalls sampleNewMeterConfig (sampleProvider, [sampleInstrumentedMeter])
          [("b", [])]).2
        (meterCalls sampleNewMeterConfig (sampleProvider, [sampleInstrumentedMeter])
          [("b", [])]).1 (0, []) = some r2 ∧
      r2.2.2.2 = [⟨100, 150, 170⟩] ∧
      ∀ sq ∈ r2.2.2.2, sq.Start ≤ sq.Last ∧ sq.Last ≤ sq.Now := by
  obtain ⟨r1, r2, h⟩ := sequence_ordered_after_first_cycle sampleCollaborators
    sampleNewMeterConfig 150 170 [sampleInstrumentedMeter]
    (meterCalls sampleNewMeterConfig (sampleProvider, [sampleInstrumentedMeter])
      [("b", [])]).2
    sampleProvider (sampleProvider.producerFor ⟨1⟩) 0 0 [("b", [])] ⟨1⟩
    (by decide) (by decide) (by decide) (by decide)
  exact ⟨by decide, by decide, by decide, by decide, r1, r2, h.1, h.2.1,
    h.2.2.2.1.trans (by decide), h.2.2.2.2.1⟩

/-- C16: for two consecutive `Produce` cycles on one producer, with any
`Meter` calls and any changes of the meters in between, both cycles return.
Every instrument of the first cycle is handed the sequence (provider start,
`lastCollect`, first clock reading) and every instrument of the second the
sequence (provider start, first clock reading, second clock reading). So for
all sequences handed out, `Last` of the second cycle is `Now` of the first,
`Now` of the second is not earlier than `Now` of the first when the clock did
not go back, and `Start` is the start time of the provider in both. -/
theorem consecutive_cycles_chain {σ Out MO : Type} (env : Collaborators σ Out)
    (NewMeterConfig : List MO → MeterConfig) (now1 now2 : time.Time) (mem mem2 : MeterHeap)
    (p : provider) (pp : providerProducer) (s s2 : σ) (calls : List (String × List MO))
    (hvalid : ∀ q ∈ p.ordered, q < mem.length)
    (hvalid2 : ∀ q ∈ (meterCalls NewMeterConfig (p, mem) calls).1.ordered, q < mem2.length)
    (hclock : now1 ≤ now2) :
    ∃ r1 r2,
      pp.Produce env.recording now1 mem p (s, []) = some r1 ∧
      pp.Produce env now1 mem p s = some (r1.1, r1.2.1, r1.2.2.1) ∧
      r1.2.1.Produce env.recording now2 mem2 (meterCalls NewMeterConfig (p, mem) calls).1
        (s2, []) = some r2 ∧
      r1.2.1.Produce env now2 mem2 (meterCalls NewMeterConfig (p, mem) calls).1 s2 =
        some (r2.1, r2.2.1, r2.2.2.1) ∧
      r1.2.2.2 = List.replicate (instrumentCount mem p.ordered)
        { Start := p.startTime, Last := pp.lastCollect, Now := now1 } ∧
      r2.2.2.2 =
        List.replicate
          (instrumentCount mem2 (meterCalls NewMeterConfig (p, mem) calls).1.ordered)
          { Start := p.startTime, Last := now1, Now := now2 } ∧
      (∀ a ∈ r1.2.2.2, ∀ b ∈ r2.2.2.2,
        b.Last = a.Now ∧ a.Now ≤ b.Now ∧ a.Start = p.startTime ∧ b.Start = p.startTime) ∧
      r2.2.1.lastCollect = now2 := by
  obtain ⟨r1, h1, h1plain, hlog1, hlast1⟩ :=
    produce_recording_of_valid env now1 mem p pp s hvalid
  obtain ⟨r2, h2, h2plain, hlog2, hlast2⟩ := produce_recording_of_valid env now2 mem2
    (meterCalls NewMeterConfig (p, mem) calls).1 r1.2.1 s2 hvalid2
  obtain ⟨hst, _, _⟩ := meterCalls_preserves NewMeterConfig calls (p, mem) hvalid
  have hst2 : (meterCalls NewMeterConfig (p, mem) calls).1.startTime = p.startTime := hst
  rw [hst2, hlast1] at hlog2
  refine ⟨r1, r2, h1, h1plain, h2, h2plain, hlog1, hlog2, ?_, hlast2⟩
  intro a ha b hb
  rw [hlog1] at ha
  rw [hlog2] at hb
  rw [List.eq_of_mem_replicate ha, List.eq_of_mem_replicate hb]
  exact ⟨rfl, hclock, rfl, rfl⟩

/-- Instance of C16: cycles at the clock readings 150 and 170 on the producer
of a provider started at 100, over a scope with one instrument, the scope "b"
created in between. -/
theorem consecutive_cycles_chain_witness :
    (∀ q ∈ sampleProvider.ordered, q < [sampleInstrumentedMeter].length) ∧
    (∀ q ∈ (meterCalls sampleNewMeterConfig (sampleProvider, [sampleInstrumentedMeter])
        [("b", [])]).1.ordered,
      q < (meterCalls sampleNewMeterConfig (sampleProvider, [sampleInstrumentedMeter])
        [("b", [])]).2.length) ∧
    (150 : time.Time) ≤ 170 ∧
    ∃ r1 r2,
      (sampleProvider.producerFor ⟨1⟩).Produce sampleCollaborators.recording 150
        [sampleInstrumentedMeter] sampleProvider (0, []) = some r1 ∧
      r1.2.1.Produce sampleCollaborators.recording 170
        (meterCalls sampleNewMeterConfig (sampleProvider, [sampleInstrumentedMeter])
          [("b", [])]).2
        (meterCalls sampleNewMeterConfig (sampleProvider, [sampleInstrumentedMeter])
          [("b", [])]).1 (0, []) = some r2 ∧
      r1.2.2.2 = [⟨100, 0, 150⟩] ∧ r2.2.2.2 = [⟨100, 150, 170⟩] := by
  obtain ⟨r1, r2, h⟩ := consecutive_cycles_chain sampleCollaborators
    sampleNewMeterConfig 150 170 [sampleInstrumentedMeter]
    (meterCalls sampleNewMeterConfig (sampleProvider, [sampleInstrumentedMeter])
      [("b", [])]).2
    sampleProvider (sampleProvider.producerFor ⟨1⟩) 0 0 [("b", [])]
    (by decide) (by decide) (by decide)
  exact ⟨by decide, by decide, by decide, r1, r2, h.1, h.2.2.1,
    h.2.2.2.2.1.trans (by decide), h.2.2.2.2.2.1.trans (by decide)⟩

end metric

namespace metric

/-! ## The order of the scopes in a snapshot -/

theorem firstOccurrences_concat {α : Type} [DecidableEq α] (l : List α) (a : α) :
    firstOccurrences (l ++ [a]) =
      if a ∈ l then firstOccurrences l else firstOccurrences l ++ [a] := by
  unfold firstOccurrences
  rw [List.reverse_append, List.reverse_singleton, List.singleton_append]
  by_cases h : a ∈ l
  · rw [if_pos h, List.dedup_cons_of_mem (List.mem_reverse.2 h)]
  · rw [if_neg h, List.dedup_cons_of_not_mem (fun hc => h (List.mem_reverse.1 hc)),
      List.reverse_cons]

theorem librariesAt_append (mem extra : MeterHeap) (ptrs : List MeterPtr)
    (hvalid : ∀ q ∈ ptrs, q < mem.length) :
    librariesAt (mem ++ extra) ptrs = librariesAt mem ptrs := by
  unfold librariesAt
  apply List.map_congr_left
  intro q hq
  rw [List.getElem?_append_left (hvalid q hq)]

/-- The state a list of `Meter` calls builds from a provider without scopes:
the ordered list holds, in the order of first request, one allocated meter
per library requested, and the scope map knows exactly these libraries. -/
theorem meterCalls_from_fresh {MO : Type} (NewMeterConfig : List MO → MeterConfig)
    (p0 : provider) (calls : List (String × List MO))
    (hordered : p0.ordered = []) (hmeters : ∀ l, p0.meters l = none) :
    (∀ q ∈ (meterCalls NewMeterConfig (p0, []) calls).1.ordered,
      q < (meterCalls NewMeterConfig (p0, []) calls).2.length) ∧
    librariesAt (meterCalls NewMeterConfig (p0, []) calls).2
        (meterCalls NewMeterConfig (p0, []) calls).1.ordered =
      (firstOccurrences (calls.map (libraryOf NewMeterConfig))).map some ∧
    (∀ l, (meterCalls NewMeterConfig (p0, []) calls).1.meters l = none ↔
      l ∉ calls.map (libraryOf NewMeterConfig)) := by
  induction calls using List.reverseRecOn with
  | nil =>
    refine ⟨?_, ?_, ?_⟩
    · intro q hq
      simp [meterCalls, hordered] at hq
    · simp [meterCalls, hordered, librariesAt, firstOccurrences]
    · intro l
      simp [meterCalls, hmeters]
  | append_singleton calls c ih =>
    obtain ⟨hv, hl, hm⟩ := ih
    obtain ⟨name, opts⟩ := c
    rw [meterCalls_append, List.map_append, List.map_singleton, firstOccurrences_concat]
    cases h : (meterCalls NewMeterConfig (p0, []) calls).1.meters
        (libraryOf NewMeterConfig (name, opts)) with
    | some q =>
      have hin : libraryOf NewMeterConfig (name, opts) ∈
          calls.map (libraryOf NewMeterConfig) := by
        by_contra hc
        rw [(hm _).2 hc] at h
        exact absurd h (by simp)
      rw [meter_of_known NewMeterConfig _ _ name opts q h, if_pos hin]
      refine ⟨hv, hl, ?_⟩
      intro l
      rw [hm l]
      simp only [List.mem_append, List.mem_singleton, not_or]
      constructor
      · intro hl2
        exact ⟨hl2, fun hc => hl2 (hc ▸ hin)⟩
      · intro hl2
        exact hl2.1
    | none =>
      have hnin : libraryOf NewMeterConfig (name, opts) ∉
          calls.map (libraryOf NewMeterConfig) := (hm _).1 h
      rw [meter_of_unknown NewMeterConfig _ _ name opts h, if_neg hnin]
      refine ⟨?_, ?_, ?_⟩
      · intro q hq
        simp only [List.mem_append, List.mem_singleton] at hq
        simp only [List.length_append, List.length_singleton]
        rcases hq with hq | hq
        · exact Nat.lt_succ_of_lt (hv q hq)
        · rw [hq]
          exact Nat.lt_succ_self _
      · show librariesAt _ (_ ++ [_]) = _
        unfold librariesAt
        rw [List.map_append, List.map_append]
        have h1 := librariesAt_append (meterCalls NewMeterConfig (p0, []) calls).2
          [{ library := libraryOf NewMeterConfig (name, opts)
             names := fun _ => []
             views := viewstate.New (libraryOf NewMeterConfig (name, opts))
               (meterCalls NewMeterConfig (p0, []) calls).1.cfg.views
               (meterCalls NewMeterConfig (p0, []) calls).1.cfg.readers
             instruments := []
             callbacks := [] }]
          (meterCalls NewMeterConfig (p0, []) calls).1.ordered hv
        unfold librariesAt at h1 hl
        rw [h1, hl]
        simp
      · intro l
        simp only [List.mem_append, List.mem_singleton, not_or]
        by_cases hll : l = libraryOf NewMeterConfig (name, opts)
        · simp [hll]
        · simp only [if_neg hll, hm l]
          exact ⟨fun hx => ⟨hx, hll⟩, fun hx => hx.1⟩

/-- C17: with every pointer of the ordered list allocated, `Produce` returns
a snapshot whose resource is the configured one and whose scopes are as many
as the meters of the ordered list, the library of the i-th scope being the
library of the i-th meter of that list. For a provider made by `New` and any
list of `Meter` calls, the libraries of the scopes are the libraries
requested, each once, in the order of their first request, and the resource
is the one the options configure. -/
theorem produce_scopes_in_creation_order {σ Out MO : Type} (env : Collaborators σ Out)
    (NewMeterConfig : List MO → MeterConfig) (now : time.Time) (mem : MeterHeap)
    (p : provider) (pp : providerProducer) (s : σ)
    (hvalid : ∀ q ∈ p.ordered, q < mem.length) :
    (∃ r, pp.Produce env now mem p s = some r ∧
      r.1.Resource = p.cfg.res ∧
      r.1.Scopes.length = p.ordered.length ∧
      r.1.Scopes.map (fun sc => some sc.Library) = librariesAt mem p.ordered) ∧
    (∀ (defaultRes : resource.Resource) (t0 : time.Time) (optionCalls : List OptionCall)
        (calls : List (String × List MO)),
      ∃ r, pp.Produce env now
          (meterCalls NewMeterConfig
            ((New defaultRes t0 (optionCalls.map OptionCall.toOption)).1, []) calls).2
          (meterCalls NewMeterConfig
            ((New defaultRes t0 (optionCalls.map OptionCall.toOption)).1, []) calls).1 s
          = some r ∧
        r.1.Scopes.map (fun sc => sc.Library) =
          firstOccurrences (calls.map (libraryOf NewMeterConfig)) ∧
        r.1.Resource = expectedResource defaultRes optionCalls) := by
  constructor
  · obtain ⟨r, hr, h1, h2, h3, _, _⟩ := produce_of_valid env now mem p pp s hvalid
    exact ⟨r, hr, h1, h2, h3⟩
  · intro defaultRes t0 optionCalls calls
    obtain ⟨hv, hl, _⟩ := meterCalls_from_fresh NewMeterConfig
      (New defaultRes t0 (optionCalls.map OptionCall.toOption)).1 calls rfl (fun _ => rfl)
    obtain ⟨r, hr, h1, _, h3, _, _⟩ := produce_of_valid env now _ _ pp s hv
    refine ⟨r, hr, ?_, ?_⟩
    · rw [hl] at h3
      have h4 : (r.1.Scopes.map (fun sc => sc.Library)).map some =
          (firstOccurrences (calls.map (libraryOf NewMeterConfig))).map some := by
        rw [List.map_map]
        exact h3
      exact List.map_injective_iff.2 (Option.some_injective _) h4
    · rw [h1, (meterCalls_preserves NewMeterConfig calls _ (by
        intro q hq
        exact absurd hq (List.not_mem_nil q))).2.1]
      exact (foldl_options optionCalls
        { res := defaultRes, readers := [], views := [] }).1

/-- Instance of C17: the scopes "a", "b", "a" again and "c" of version "v1"
are requested from a provider whose options set the resource twice. -/
theorem produce_scopes_in_creation_order_witness :
    ∃ r, ((New ⟨0⟩ 100 []).1.producerFor ⟨1⟩).Produce sampleCollaborators 150
        (meterCalls sampleNewMeterConfig
          ((New ⟨0⟩ 100 ([OptionCall.withResource ⟨5⟩, OptionCall.withReader ⟨1⟩,
            OptionCall.withResource ⟨6⟩].map OptionCall.toOption)).1, [])
          [("a", []), ("b", []), ("a", []), ("c", [⟨"v1", ""⟩])]).2
        (meterCalls sampleNewMeterConfig
          ((New ⟨0⟩ 100 ([OptionCall.withResource ⟨5⟩, OptionCall.withReader ⟨1⟩,
            OptionCall.withResource ⟨6⟩].map OptionCall.toOption)).1, [])
          [("a", []), ("b", []), ("a", []), ("c", [⟨"v1", ""⟩])]).1 0 = some r ∧
      r.1.Scopes.map (fun sc => sc.Library) =
        [⟨"a", "", ""⟩, ⟨"b", "", ""⟩, ⟨"c", "v1", ""⟩] ∧
      r.1.Resource = ⟨6⟩ :=
  (((produce_scopes_in_creation_order sampleCollaborators sampleNewMeterConfig 150 []
      (New ⟨0⟩ 100 []).1 ((New ⟨0⟩ 100 []).1.producerFor ⟨1⟩) 0 (by decide)).2 ⟨0⟩ 100
      [OptionCall.withResource ⟨5⟩, OptionCall.withReader ⟨1⟩, OptionCall.withResource ⟨6⟩]
      [("a", []), ("b", []), ("a", []), ("c", [⟨"v1", ""⟩])]).imp
    (fun _ h => ⟨h.1, h.2.1.trans (by decide), h.2.2.trans (by decide)⟩))

end metric

namespace metric

/-! ## One instrument per identity -/

theorem reachable_invariant {O : Type} (NewConfig : List O → instrument.Config)
    (P : TypeTag → Prop) (m : meter) (h : Reachable NewConfig P m) (name : String) :
    (m.names name).Pairwise (fun a b => ¬ SameIdentity a b) ∧
    ∀ e ∈ m.names name, P e.dynType := by
  induction h with
  | start lib c =>
    exact ⟨List.Pairwise.nil, fun e he => absurd he (List.not_mem_nil e)⟩
  | call m T name2 opts nk ik f _ hP hf ih =>
    by_cases hn : name = name2
    · subst hn
      rcases nameLookup_names NewConfig T m name opts nk ik f hf with ⟨_, h2⟩ | ⟨h1, h2⟩
      · rw [h2]
        exact ih
      · rw [h2]
        have hnew := nameLookup_result_matches NewConfig T m name opts nk ik f hf
        constructor
        · rw [List.pairwise_append]
          refine ⟨ih.1, List.pairwise_singleton _ _, ?_⟩
          intro a ha b hb hsame
          rw [List.mem_singleton] at hb
          subst hb
          apply (scan_eq_none_iff T nk ik _ _).1 h1 a ha
          obtain ⟨s1, s2, s3, s4⟩ := hsame
          obtain ⟨n1, n2, n3, n4⟩ := hnew
          exact ⟨s1.trans n1, s3.trans n2, s2.trans n3, s4.trans n4⟩
        · intro e he
          rw [List.mem_append, List.mem_singleton] at he
          rcases he with he | he
          · exact ih.2 e he
          · rw [he]
            exact hP
    · rw [nameLookup_names_other NewConfig T m name2 opts nk ik f hf name hn]
      exact ih

/-- C20, as stated, fails: two `nameLookup` calls on a new meter for the
counter "requests", the first with instrument type 0 and the second with
instrument type 1, lead to a reachable meter state whose by-name index holds
two different instruments under "requests" with the same instrument kind,
number kind and unit. -/
theorem two_types_two_instruments :
    Reachable sampleNewConfig (fun _ => True)
      (secondLookup sampleNewConfig sampleMeter "requests" 0 [] 0 0 (plainConstructor 1)
        1 [] 0 0 (plainConstructor 2)).2 ∧
    (secondLookup sampleNewConfig sampleMeter "requests" 0 [] 0 0 (plainConstructor 1)
        1 [] 0 0 (plainConstructor 2)).2.names "requests" =
      [{ dynType := 0,
         value := { addr := 1,
                    descriptor := sdkinstrument.NewDescriptor "requests" 0 0 "" "" } },
       { dynType := 1,
         value := { addr := 2,
                    descriptor := sdkinstrument.NewDescriptor "requests" 0 0 "" "" } }] ∧
    SameKindUnit
      { dynType := 0,
        value := { addr := 1,
                   descriptor := sdkinstrument.NewDescriptor "requests" 0 0 "" "" } }
      { dynType := 1,
        value := { addr := 2,
                   descriptor := sdkinstrument.NewDescriptor "requests" 0 0 "" "" } } ∧
    ¬ ((secondLookup sampleNewConfig sampleMeter "requests" 0 [] 0 0 (plainConstructor 1)
        1 [] 0 0 (plainConstructor 2)).2.names "requests").Pairwise
          (fun a b => ¬ SameKindUnit a b) := by
  refine ⟨?_, by decide, ⟨rfl, rfl, rfl⟩, ?_⟩
  · exact Reachable.call _ 1 "requests" [] 0 0 (plainConstructor 2)
      (Reachable.call _ 0 "requests" [] 0 0 (plainConstructor 1)
        (Reachable.start _ _) trivial (fun _ _ => ⟨rfl, rfl⟩))
      trivial (fun _ _ => ⟨rfl, rfl⟩)
  · intro hp
    have hlist : (secondLookup sampleNewConfig sampleMeter "requests" 0 [] 0 0
        (plainConstructor 1) 1 [] 0 0 (plainConstructor 2)).2.names "requests" =
      [{ dynType := 0,
         value := { addr := 1,
                    descriptor := sdkinstrument.NewDescriptor "requests" 0 0 "" "" } },
       { dynType := 1,
         value := { addr := 2,
                    descriptor := sdkinstrument.NewDescriptor "requests" 0 0 "" "" } }] := by
      decide
    rw [hlist, List.pairwise_cons] at hp
    exact hp.1 _ (List.mem_singleton_self _) ⟨rfl, rfl, rfl⟩

/-- C20, amended: in every meter state reachable from a new meter by
`nameLookup` calls whose constructors store the descriptor they are given,
the by-name index never holds, under one name, two instruments with the same
instrument type `T`, instrument kind, number kind and unit; when all calls
use one instrument type, it never holds two instruments with the same
instrument kind, number kind and unit under one name. -/
theorem index_has_one_instrument_per_identity {O : Type}
    (NewConfig : List O → instrument.Config) (P : TypeTag → Prop) (m : meter)
    (hreach : Reachable NewConfig P m) (name : String) :
    (m.names name).Pairwise (fun a b => ¬ SameIdentity a b) ∧
    ((∀ T1 T2 : TypeTag, P T1 → P T2 → T1 = T2) →
      (m.names name).Pairwise (fun a b => ¬ SameKindUnit a b)) := by
  obtain ⟨hpair, hall⟩ := reachable_invariant NewConfig P m hreach name
  refine ⟨hpair, ?_⟩
  intro hone
  apply List.Pairwise.imp_of_mem _ hpair
  intro a b ha hb hnot hsame
  exact hnot ⟨hone _ _ (hall a ha) (hall b hb), hsame.1, hsame.2.1, hsame.2.2⟩

/-- Instance of C20 amended: with the instrument type 0 in both calls,
"requests" looked up as a counter and then as a histogram. -/
theorem index_has_one_instrument_per_identity_witness :
    Reachable sampleNewConfig (fun T => T = 0)
      (secondLookup sampleNewConfig sampleMeter "requests" 0 [] 0 0 (plainConstructor 1)
        0 [] 0 2 (plainConstructor 2)).2 ∧
    (∀ T1 T2 : TypeTag, T1 = 0 → T2 = 0 → T1 = T2) ∧
    ((secondLookup sampleNewConfig sampleMeter "requests" 0 [] 0 0 (plainConstructor 1)
        0 [] 0 2 (plainConstructor 2)).2.names "requests").Pairwise
      (fun a b => ¬ SameKindUnit a b) :=
  ⟨Reachable.call _ 0 "requests" [] 0 2 (plainConstructor 2)
      (Reachable.call _ 0 "requests" [] 0 0 (plainConstructor 1)
        (Reachable.start _ _) rfl (fun _ _ => ⟨rfl, rfl⟩))
      rfl (fun _ _ => ⟨rfl, rfl⟩),
    fun _ _ h1 h2 => h1.trans h2.symm,
    (index_has_one_instrument_per_identity sampleNewConfig (fun T => T = 0) _
      (Reachable.call _ 0 "requests" [] 0 2 (plainConstructor 2)
        (Reachable.call _ 0 "requests" [] 0 0 (plainConstructor 1)
          (Reachable.start _ _) rfl (fun _ _ => ⟨rfl, rfl⟩))
        rfl (fun _ _ => ⟨rfl, rfl⟩)) "requests").2 (fun _ _ h1 h2 => h1.trans h2.symm)⟩

end metric
